import Mathlib

/-!
Verification development for the moviepy-fast rendering/compositing core.

The Python sources under `moviepy/video/` are shallowly embedded:

* raster buffers become `Img π` values (a width, a height, and a pixel
  function); 8-bit channels are `Nat` values, float buffers are `ℚ` valued;
* Python floats (timestamps, opacities, blur radii) are modelled as exact
  rationals `ℚ`;
* fallible constructors return `Except`;
* external collaborators (PIL drawing and resampling, the numpy PRNG,
  the font-metrics oracle, image loading from disk) are modelled as
  explicit function parameters or as fixed deterministic functions, each
  marked `Modelled from the spec:` in its doc comment.
-/

namespace MoviepyFast

/-- A 2-D pixel grid with pixel payload `π`: the model of a numpy array or
PIL image of size `(w, h)`.  `pix x y` is the pixel at column `x`, row `y`;
values outside the `w × h` domain are irrelevant to the image semantics but
are carried by the function anyway. -/
structure Img (π : Type) where
  w : Nat
  h : Nat
  pix : Nat → Nat → π

/-- RGB pixel, channels intended in `[0, 255]`. -/
abbrev Rgb := Nat × Nat × Nat

/-- RGBA pixel, channels intended in `[0, 255]`. -/
abbrev Rgba := Nat × Nat × Nat × Nat

/-- An RGB raster (`uint8` numpy array of shape `(h, w, 3)` or PIL `RGB`). -/
abbrev Raster := Img Rgb

/-- An RGBA raster (`uint8` numpy array of shape `(h, w, 4)` or PIL `RGBA`). -/
abbrev RasterA := Img Rgba

/-- A single-channel 8-bit raster (PIL mode `L`, e.g. an alpha mask). -/
abbrev Gray := Img Nat

/-- A single-channel float raster (e.g. a `float32` mask in `[0, 1]`). -/
abbrev GrayQ := Img ℚ

/-- Python `int(q)` on a float: truncation toward zero. -/
def pyInt (q : ℚ) : Int :=
  if q < 0 then -(⌊-q⌋) else ⌊q⌋

/-- Python list indexing `xs[i]`: non-negative indices from the front,
negative indices from the back, `IndexError` (modelled as `none`)
out of range. -/
def pyListGet {α : Type} (xs : List α) (i : Int) : Option α :=
  if 0 ≤ i then xs[i.toNat]?
  else if -(xs.length : Int) ≤ i then xs[((xs.length : Int) + i).toNat]?
  else none

/-!
## Word-level frame selection (`FancyText.py`, `_make_frame` closures)

`create_word_fancytext` and `create_word_fancytext_adv` build, per line, a
`VideoClip` whose frame function is

    def _make_frame(t, _rgb=rgb_frames, _wd=word_dur, _n=n_words_in_line):
        idx = min(int(t / _wd), _n - 1)
        return _rgb[idx]

and an identical `_make_mask_frame` over the float alpha frames.
-/

/-- The highlight index selected at elapsed line time `t`:
`min(int(t / _wd), _n - 1)` with Python `int` truncation. -/
def lineFrameIndex (wd : ℚ) (n : Nat) (t : ℚ) : Int :=
  min (pyInt (t / wd)) ((n : Int) - 1)

/-- Model of `_make_frame`: pick the pre-rendered RGB frame at
`lineFrameIndex`. -/
def lineMakeFrame (rgbFrames : List Raster) (wd : ℚ) (n : Nat) (t : ℚ) :
    Option Raster :=
  pyListGet rgbFrames (lineFrameIndex wd n t)

/-- Model of `_make_mask_frame`: pick the pre-computed float alpha frame at
`lineFrameIndex`. -/
def lineMakeMaskFrame (alphaFrames : List GrayQ) (wd : ℚ) (n : Nat) (t : ℚ) :
    Option GrayQ :=
  pyListGet alphaFrames (lineFrameIndex wd n t)

/-!
## Greedy line packing (`FancyText.py`, `_group_words_into_lines`)

The pixel width of a candidate line (`dummy.textbbox` on the joined words)
is the external font-metrics oracle; it is passed in as the function
`lineWidthPx` on the candidate word list.
-/

/-- One loop iteration of `_group_words_into_lines`; the state is the pair
`(lines, current)`. -/
def groupStep (lineWidthPx : List String → Nat) (maxWords maxWidthPx : Nat)
    (st : List (List String) × List String) (word : String) :
    List (List String) × List String :=
  let lines := st.1
  let current := st.2
  let candidate := current ++ [word]
  if maxWords < candidate.length then
    (if current = [] then lines else lines ++ [current], [word])
  else if maxWidthPx < lineWidthPx candidate ∧ current ≠ [] then
    (lines ++ [current], [word])
  else
    (lines, candidate)

/-- Model of `_group_words_into_lines`: fold the greedy packer over the
words, then append the trailing `current` line if non-empty. -/
def groupWordsIntoLines (lineWidthPx : List String → Nat)
    (maxWords maxWidthPx : Nat) (words : List String) : List (List String) :=
  let st := words.foldl (groupStep lineWidthPx maxWords maxWidthPx) ([], [])
  if st.2 = [] then st.1 else st.1 ++ [st.2]

/-- Ceiling division on naturals. -/
def ceilDiv (a b : Nat) : Nat := (a + b - 1) / b

/-!
## Raster and mask primitives (PIL / numpy operations)

Deterministic models of the PIL operations used by the effect pipeline.
Resampling kernels (Gaussian blur, bicubic shift, LANCZOS resize) are
external collaborators whose exact kernels are not part of this repository;
they are modelled as fixed deterministic window operations, which is all the
claims depend on.
-/

/-- Clamp a rational to `[lo, hi]`. -/
def clampQ (q lo hi : ℚ) : ℚ := max lo (min q hi)

/-- `clip(0, 255).astype(np.uint8)` on a non-negative-or-clamped value:
clamp to `[0, 255]` then truncate to an integer. -/
def ratToU8 (q : ℚ) : Nat := (⌊clampQ q 0 255⌋).toNat

/-- Clamp an integer coordinate into `[0, n - 1]` (edge padding for window
filters). -/
def clampIdx (i : Int) (n : Nat) : Nat := min (max i 0).toNat (n - 1)

/-- `ImageChops.invert` on an 8-bit single-channel image. -/
def invertG (g : Gray) : Gray :=
  { g with pix := fun x y => 255 - g.pix x y }

/-- `ImageChops.offset`: circular shift by `(dx, dy)`, wrapping around the
image edges. -/
def offsetG (g : Gray) (dx dy : Int) : Gray :=
  { g with pix := fun x y =>
      g.pix (((x : Int) - dx).emod g.w).toNat (((y : Int) - dy).emod g.h).toNat }

/-- `ImageChops.multiply` on 8-bit single-channel images: per-pixel
`a * b / 255` in PIL's rounded fixed-point arithmetic. -/
def multiplyG (a b : Gray) : Gray :=
  { a with pix := fun x y => (a.pix x y * b.pix x y + 127) / 255 }

/-- Modelled from the spec: the blur utility of the Raster Buffer
(`ImageFilter.GaussianBlur(radius)`), an external PIL kernel; modelled as
the normalized box average over the `(2⌈radius⌉+1)²` window with edge
clamping — a fixed deterministic smoothing of the right support. -/
def gaussianBlurG (radius : ℚ) (g : Gray) : Gray :=
  let s := (max 0 ⌈radius⌉).toNat
  { g with pix := fun x y =>
      (((List.range (2 * s + 1)).flatMap (fun dy =>
        (List.range (2 * s + 1)).map (fun dx =>
          g.pix (clampIdx ((x : Int) + dx - s) g.w)
                (clampIdx ((y : Int) + dy - s) g.h)))).sum)
        / ((2 * s + 1) * (2 * s + 1)) }

/-- `ImageFilter.MinFilter(size)`: per-pixel minimum over the `size × size`
window (erosion), with edge clamping. -/
def minFilterG (size : Nat) (g : Gray) : Gray :=
  let s := size / 2
  { g with pix := fun x y =>
      (((List.range (2 * s + 1)).flatMap (fun dy =>
        (List.range (2 * s + 1)).map (fun dx =>
          g.pix (clampIdx ((x : Int) + dx - s) g.w)
                (clampIdx ((y : Int) + dy - s) g.h)))).foldl min 255) }

/-- Modelled from the spec: the sub-pixel affine shift with smooth
(bicubic) resampling used by the bevel height-map
(`height_map.transform(..., Image.AFFINE, (1, 0, dx, 0, 1, dy), BICUBIC)`),
an external PIL kernel; modelled as bilinear sampling at the shifted
coordinate, a fixed deterministic smooth resampler. -/
def affineShiftG (dx dy : ℚ) (g : Gray) : Gray :=
  { g with pix := fun x y =>
      let sx : ℚ := (x : ℚ) + dx
      let sy : ℚ := (y : ℚ) + dy
      let fx := ⌊sx⌋
      let fy := ⌊sy⌋
      let ax := sx - fx
      let ay := sy - fy
      let p00 : ℚ := g.pix (clampIdx fx g.w) (clampIdx fy g.h)
      let p10 : ℚ := g.pix (clampIdx (fx + 1) g.w) (clampIdx fy g.h)
      let p01 : ℚ := g.pix (clampIdx fx g.w) (clampIdx (fy + 1) g.h)
      let p11 : ℚ := g.pix (clampIdx (fx + 1) g.w) (clampIdx (fy + 1) g.h)
      ratToU8 (p00 * (1 - ax) * (1 - ay) + p10 * ax * (1 - ay) +
        p01 * (1 - ax) * ay + p11 * ax * ay) }

/-- First (red) channel of an RGBA pixel. -/
def rOfA (p : Rgba) : Nat := p.1

/-- Green channel of an RGBA pixel. -/
def gOfA (p : Rgba) : Nat := p.2.1

/-- Blue channel of an RGBA pixel. -/
def bOfA (p : Rgba) : Nat := p.2.2.1

/-- Alpha channel of an RGBA pixel. -/
def aOfA (p : Rgba) : Nat := p.2.2.2

/-- RGB part of an RGBA pixel (`img.convert("RGB")` per pixel). -/
def rgbOfA (p : Rgba) : Rgb := (p.1, p.2.1, p.2.2.1)

/-- The straight-alpha "over" operator on one RGBA pixel pair, computed
exactly in ℚ and truncated back to 8 bits per channel. -/
def overPix (d s : Rgba) : Rgba :=
  let sa : ℚ := (aOfA s : ℚ) / 255
  let da : ℚ := (aOfA d : ℚ) / 255
  let oa : ℚ := sa + da * (1 - sa)
  if oa = 0 then (0, 0, 0, 0)
  else
    (ratToU8 (((rOfA s : ℚ) * sa + (rOfA d : ℚ) * da * (1 - sa)) / oa),
     ratToU8 (((gOfA s : ℚ) * sa + (gOfA d : ℚ) * da * (1 - sa)) / oa),
     ratToU8 (((bOfA s : ℚ) * sa + (bOfA d : ℚ) * da * (1 - sa)) / oa),
     ratToU8 (oa * 255))

/-- `PIL.Image.alpha_composite`: the "over" operator applied per pixel. -/
def alphaCompositeA (dst src : RasterA) : RasterA :=
  { dst with pix := fun x y => overPix (dst.pix x y) (src.pix x y) }

/-- An RGBA layer of a constant colour with a per-pixel alpha channel
(`Image.new("RGBA", (w, h), (*color, 0))` followed by `putalpha`). -/
def colorLayerA (w h : Nat) (color : Rgb) (alpha : Gray) : RasterA :=
  { w := w, h := h, pix := fun x y =>
      (color.1, color.2.1, color.2.2, alpha.pix x y) }

/-!
## Advanced text effects (`FancyText.py`)

Angles reach the code in degrees and are consumed only through
`math.cos`/`math.sin`; the model threads a trigonometric oracle
`trig : ℚ → ℚ × ℚ` mapping degrees to the `(cos, sin)` pair, and the
gradient synthesis takes the resolved pair directly.
-/

/-- The per-pixel segment loop of `_create_linear_gradient`: walk the
consecutive colour-stop intervals in order; where the normalized position
`t` falls in an interval, overwrite the channels with the linear
interpolation of its endpoints. -/
def gradientSegments (colors : List Rgb) (t : ℚ) : Rgb :=
  let n := colors.length
  (List.range (n - 1)).foldl (fun acc (i : Nat) =>
    let t0 : ℚ := (i : ℚ) / ((n : ℚ) - 1)
    let t1 : ℚ := ((i : ℚ) + 1) / ((n : ℚ) - 1)
    let span := t1 - t0
    if span ≤ 0 then acc
    else if t0 ≤ t ∧ t ≤ t1 then
      let segT := clampQ ((t - t0) / span) 0 1
      let c0 := colors.getD i (0, 0, 0)
      let c1 := colors.getD (i + 1) (0, 0, 0)
      (ratToU8 ((c0.1 : ℚ) * (1 - segT) + (c1.1 : ℚ) * segT),
       ratToU8 ((c0.2.1 : ℚ) * (1 - segT) + (c1.2.1 : ℚ) * segT),
       ratToU8 ((c0.2.2 : ℚ) * (1 - segT) + (c1.2.2 : ℚ) * segT))
    else acc) ((0 : Nat), (0 : Nat), (0 : Nat))

/-- `_create_linear_gradient`: per-pixel projection on the gradient axis,
normalized by the axis's true span at this angle, with segment-wise linear
interpolation between consecutive colour stops (fewer than 2 stops are
duplicated first). -/
def createLinearGradient (width height : Nat) (colors0 : List Rgb)
    (cosA sinA : ℚ) : RasterA :=
  let colors := if colors0.length < 2 then colors0 ++ colors0 else colors0
  let maxProj : ℚ := |cosA| * width / 2 + |sinA| * height / 2
  { w := width, h := height, pix := fun x y =>
      let proj : ℚ :=
        ((x : ℚ) - (width : ℚ) / 2) * cosA + ((y : ℚ) - (height : ℚ) / 2) * sinA
      let t : ℚ := clampQ ((proj / max maxProj 1 + 1) / 2) 0 1
      let rgb := gradientSegments colors t
      (rgb.1, rgb.2.1, rgb.2.2, 255) }

/-- The overlay layer assembled inside `_fx_gradient_overlay`: the
synthesized gradient with its alpha channel replaced by
`(mask / 255) * 255 * opacity`, clipped and truncated to `uint8`. -/
def gradientOverlayLayer (w h : Nat) (textMask : Gray) (colors : List Rgb)
    (cosA sinA opacity : ℚ) : RasterA :=
  let gradient := createLinearGradient w h colors cosA sinA
  let opa := clampQ opacity 0 1
  { w := w, h := h, pix := fun x y =>
      let g := gradient.pix x y
      (rOfA g, gOfA g, bOfA g,
        ratToU8 ((textMask.pix x y : ℚ) / 255 * 255 * opa)) }

/-- `_fx_gradient_overlay`: alpha-composite the overlay layer onto the
image. -/
def fxGradientOverlay (img : RasterA) (textMask : Gray) (colors : List Rgb)
    (cosA sinA opacity : ℚ) : RasterA :=
  alphaCompositeA img
    (gradientOverlayLayer img.w img.h textMask colors cosA sinA opacity)

/-- `_fx_inner_shadow`: offset the inverted boundary mask, blur, clip to the
visible text area, amplify (`p * 1.5`, capped at 255) times the opacity, and
composite in the shadow colour. -/
def fxInnerShadow (img : RasterA) (textMask clipMask : Gray) (color : Rgb)
    (offset : Int × Int) (blur opacity : ℚ) : RasterA :=
  let inv := invertG textMask
  let shifted0 := offsetG inv offset.1 offset.2
  let shifted := if 0 < blur then gaussianBlurG blur shifted0 else shifted0
  let clipped := multiplyG shifted clipMask
  let opa := clampQ opacity 0 1
  let alpha : Gray :=
    { clipped with pix := fun x y =>
        (⌊min 255 ((clipped.pix x y : ℚ) * 3 / 2) * opa⌋).toNat }
  alphaCompositeA img (colorLayerA img.w img.h color alpha)

/-- `_fx_inner_glow`: blur the inverted boundary mask by the glow size, clip
to the visible text area, amplify (`p * 2`) times the opacity, and composite
in the glow colour. -/
def fxInnerGlow (img : RasterA) (textMask clipMask : Gray) (color : Rgb)
    (size opacity : ℚ) : RasterA :=
  let inv := invertG textMask
  let glow := gaussianBlurG (max 1 size) inv
  let glow2 := multiplyG glow clipMask
  let opa := clampQ opacity 0 1
  let alpha : Gray :=
    { glow2 with pix := fun x y =>
        (⌊min 255 ((glow2.pix x y : ℚ) * 2) * opa⌋).toNat }
  alphaCompositeA img (colorLayerA img.w img.h color alpha)

/-- `_fx_bevel_emboss`: height-map from the blurred mask, sub-pixel shifted
copy along the light direction, bump = difference, re-smoothed and
contrast-amplified; positive bump tints with the highlight colour, negative
with the shadow colour, each clipped by style and antialiased. -/
def fxBevelEmboss (img : RasterA) (textMask : Gray) (style : String)
    (depth : ℚ) (cosA sinA : ℚ) (highlightColor shadowColor : Rgb)
    (highlightOpacity shadowOpacity soften : ℚ) : RasterA :=
  let blurR := max (5/2) (soften + 2)
  let heightMap := gaussianBlurG blurR textMask
  let rawDx := cosA * depth
  let rawDy := -sinA * depth
  -- PIL affine data (1, 0, raw_dx, 0, 1, -raw_dy) samples the source at
  -- (x + raw_dx, y - raw_dy)
  let shifted := affineShiftG rawDx (-rawDy) heightMap
  let bump0 : GrayQ :=
    { w := heightMap.w, h := heightMap.h, pix := fun x y =>
        (heightMap.pix x y : ℚ) / 255 - (shifted.pix x y : ℚ) / 255 }
  let smoothR := max (6/5) (depth * 3/5)
  let bumpImg : Gray :=
    { w := bump0.w, h := bump0.h, pix := fun x y =>
        ratToU8 ((bump0.pix x y + 1) * (255/2)) }
  let bumpBlurred := gaussianBlurG smoothR bumpImg
  let contrast := max 1 (depth * 7/10)
  let bump : GrayQ :=
    { w := bump0.w, h := bump0.h, pix := fun x y =>
        clampQ (((bumpBlurred.pix x y : ℚ) / (255/2) - 1) * contrast) (-1) 1 }
  let hi0 : GrayQ :=
    { w := bump.w, h := bump.h, pix := fun x y => clampQ (bump.pix x y) 0 1 }
  let sh0 : GrayQ :=
    { w := bump.w, h := bump.h, pix := fun x y => clampQ (-bump.pix x y) 0 1 }
  let origA : GrayQ :=
    { w := textMask.w, h := textMask.h, pix := fun x y =>
        (textMask.pix x y : ℚ) / 255 }
  let hi : GrayQ :=
    if style = "inner_bevel" then
      { w := hi0.w, h := hi0.h, pix := fun x y =>
          hi0.pix x y * clampQ (origA.pix x y * 3/2) 0 1 }
    else if style = "outer_bevel" then
      { w := hi0.w, h := hi0.h, pix := fun x y =>
          hi0.pix x y * clampQ ((1 - origA.pix x y) * 3/2) 0 1 }
    else hi0
  let sh : GrayQ :=
    if style = "inner_bevel" then
      { w := sh0.w, h := sh0.h, pix := fun x y =>
          sh0.pix x y * clampQ (origA.pix x y * 3/2) 0 1 }
    else if style = "outer_bevel" then
      { w := sh0.w, h := sh0.h, pix := fun x y =>
          sh0.pix x y * clampQ ((1 - origA.pix x y) * 3/2) 0 1 }
    else sh0
  let aaR := max (7/10) (depth * 7/20)
  let hOpa := clampQ highlightOpacity 0 1
  let hAlpha0 : Gray :=
    { w := hi.w, h := hi.h, pix := fun x y =>
        ratToU8 (hi.pix x y * 255 * hOpa) }
  let hAlpha1 := gaussianBlurG aaR hAlpha0
  let hAlpha : Gray :=
    if style = "inner_bevel" then
      { w := hAlpha1.w, h := hAlpha1.h, pix := fun x y =>
          ratToU8 ((hAlpha1.pix x y : ℚ) * origA.pix x y) }
    else if style = "outer_bevel" then
      { w := hAlpha1.w, h := hAlpha1.h, pix := fun x y =>
          ratToU8 ((hAlpha1.pix x y : ℚ) * (1 - origA.pix x y)) }
    else hAlpha1
  let img2 :=
    alphaCompositeA img (colorLayerA img.w img.h highlightColor hAlpha)
  let sOpa := clampQ shadowOpacity 0 1
  let sAlpha0 : Gray :=
    { w := sh.w, h := sh.h, pix := fun x y =>
        ratToU8 (sh.pix x y * 255 * sOpa) }
  let sAlpha1 := gaussianBlurG aaR sAlpha0
  let sAlpha : Gray :=
    if style = "inner_bevel" then
      { w := sAlpha1.w, h := sAlpha1.h, pix := fun x y =>
          ratToU8 ((sAlpha1.pix x y : ℚ) * origA.pix x y) }
    else if style = "outer_bevel" then
      { w := sAlpha1.w, h := sAlpha1.h, pix := fun x y =>
          ratToU8 ((sAlpha1.pix x y : ℚ) * (1 - origA.pix x y)) }
    else sAlpha1
  alphaCompositeA img2 (colorLayerA img.w img.h shadowColor sAlpha)

/-- `_blend_rgb`: pixel-wise blend of two RGB images in normalized `[0, 1]`
arithmetic (`normal`, `multiply`, `screen`, `overlay`). -/
def blendRgb (base overlay : Raster) (mode : String) : Raster :=
  let f : ℚ → ℚ → ℚ := fun b o =>
    if mode = "multiply" then b * o
    else if mode = "screen" then 1 - (1 - b) * (1 - o)
    else if mode = "overlay" then
      if b < 1/2 then 2 * b * o else 1 - 2 * (1 - b) * (1 - o)
    else o
  { base with pix := fun x y =>
      let b := base.pix x y
      let o := overlay.pix x y
      (ratToU8 (f ((b.1 : ℚ) / 255) ((o.1 : ℚ) / 255) * 255),
       ratToU8 (f ((b.2.1 : ℚ) / 255) ((o.2.1 : ℚ) / 255) * 255),
       ratToU8 (f ((b.2.2 : ℚ) / 255) ((o.2.2 : ℚ) / 255) * 255)) }

/-- Modelled from the spec: PIL `resize(..., LANCZOS)`, an external
resampling collaborator; modelled as nearest-coordinate sampling into the
scaled grid (a fixed deterministic resizer). -/
def resizeImg (tex : Raster) (tw th : Nat) : Raster :=
  { w := tw, h := th, pix := fun x y =>
      tex.pix (x * tex.w / max tw 1) (y * tex.h / max th 1) }

/-- The texture-source resolution at the top of `_fx_texture`: use the
in-memory image when supplied, otherwise try to open the path (`loadImage`
is the external `Image.open` collaborator; `none` models the `except`
branch), otherwise there is no texture. -/
def resolveTexture (loadImage : String → Option Raster)
    (path : Option String) (textureImage : Option Raster) : Option Raster :=
  match textureImage with
  | some t => some t
  | none =>
    match path with
    | some p => loadImage p
    | none => none

/-- `_fx_texture`: resolve the texture source (a failed or absent source
returns the input unchanged), scale it, tile it over the frame, blend
against the existing RGB content, and composite into the masked area at the
given opacity. -/
def fxTexture (loadImage : String → Option Raster) (img : RasterA)
    (textMask : Gray) (path : Option String) (scale opacity : ℚ)
    (blendMode : String) (textureImage : Option Raster) : RasterA :=
  let pipeline : Raster → RasterA := fun tex0 =>
    let tex :=
      if scale ≠ 1 then
        resizeImg tex0 (max 1 (⌊(tex0.w : ℚ) * scale⌋).toNat)
          (max 1 (⌊(tex0.h : ℚ) * scale⌋).toNat)
      else tex0
    let tiled : Raster :=
      { w := img.w, h := img.h, pix := fun x y =>
          tex.pix (x % tex.w) (y % tex.h) }
    let baseRgb : Raster :=
      { w := img.w, h := img.h, pix := fun x y => rgbOfA (img.pix x y) }
    let blended := blendRgb baseRgb tiled blendMode
    let opa := clampQ opacity 0 1
    { w := img.w, h := img.h, pix := fun x y =>
        let factor : ℚ := (textMask.pix x y : ℚ) / 255 * opa
        let b := img.pix x y
        let o := blended.pix x y
        (ratToU8 ((rOfA b : ℚ) * (1 - factor) + (o.1 : ℚ) * factor),
         ratToU8 ((gOfA b : ℚ) * (1 - factor) + (o.2.1 : ℚ) * factor),
         ratToU8 ((bOfA b : ℚ) * (1 - factor) + (o.2.2 : ℚ) * factor),
         aOfA b) }
  match resolveTexture loadImage path textureImage with
  | some t => pipeline t
  | none => img

/-- The classic silver-chrome gradient bands used when `chrome_colors` is
`None`. -/
def chromeDefaultColors : List Rgb :=
  [(255, 255, 255), (210, 215, 230), (100, 105, 130), (245, 248, 255),
   (120, 125, 150), (250, 252, 255), (80, 85, 110), (230, 235, 248),
   (60, 65, 90)]

/-- `_fx_chrome`: the metallic gradient at 90° on the fill mask followed by
a strong inner bevel (depth 8, 135° light) on the full mask. -/
def fxChrome (trig : ℚ → ℚ × ℚ) (img : RasterA) (textMask : Gray)
    (colors : Option (List Rgb)) (opacity : ℚ) (fillMask : Option Gray) :
    RasterA :=
  let cs := colors.getD chromeDefaultColors
  let opa := clampQ opacity 0 1
  let gradMask := fillMask.getD textMask
  let img2 := fxGradientOverlay img gradMask cs (trig 90).1 (trig 90).2 opa
  fxBevelEmboss img2 textMask "inner_bevel" 8 (trig 135).1 (trig 135).2
    (255, 255, 255) (20, 20, 45) (min 1 (opa + 1/2)) (min 1 (opa * 3/4)) 1

/-- The flat keyword-argument bag of `apply_advanced_effects`. -/
structure FxParams where
  strokeWidth : Nat := 0
  innerShadowEnabled : Bool := false
  innerShadowColor : Rgb := (0, 0, 0)
  innerShadowOffset : Int × Int := (3, 3)
  innerShadowBlur : ℚ := 5
  innerShadowOpacity : ℚ := 3/4
  innerGlowEnabled : Bool := false
  innerGlowColor : Rgb := (255, 255, 255)
  innerGlowSize : ℚ := 6
  innerGlowOpacity : ℚ := 3/4
  gradientOverlayEnabled : Bool := false
  gradientOverlayColors : List Rgb := [(255, 215, 0), (255, 140, 0)]
  gradientOverlayAngle : ℚ := 0
  gradientOverlayOpacity : ℚ := 4/5
  bevelEmbossEnabled : Bool := false
  bevelEmbossStyle : String := "inner_bevel"
  bevelEmbossDepth : ℚ := 3
  bevelEmbossAngle : ℚ := 135
  bevelEmbossHighlightColor : Rgb := (255, 255, 255)
  bevelEmbossShadowColor : Rgb := (0, 0, 0)
  bevelEmbossHighlightOpacity : ℚ := 3/4
  bevelEmbossShadowOpacity : ℚ := 3/4
  bevelEmbossSoften : ℚ := 0
  textureEnabled : Bool := false
  texturePath : Option String := none
  textureScale : ℚ := 1
  textureOpacity : ℚ := 1/2
  textureBlendMode : String := "overlay"
  textureImage : Option Raster := none
  chromeEnabled : Bool := false
  chromeColors : Option (List Rgb) := none
  chromeOpacity : ℚ := 9/10

/-- `apply_advanced_effects`: erode the mask when the stroke is wide, then
apply chrome → gradient overlay → texture → bevel/emboss → inner shadow →
inner glow, each gated by its enabled flag. -/
def applyAdvancedEffects (trig : ℚ → ℚ × ℚ)
    (loadImage : String → Option Raster) (frameArr : RasterA)
    (textMaskArr : Gray) (p : FxParams) : RasterA :=
  let textMask := textMaskArr
  let fillMask :=
    if 1 < p.strokeWidth then
      let ks0 := max 3 (p.strokeWidth * 2 - 1)
      let ks := if ks0 % 2 = 0 then ks0 + 1 else ks0
      minFilterG ks textMask
    else textMask
  let img0 := frameArr
  let img1 :=
    if p.chromeEnabled then
      fxChrome trig img0 textMask p.chromeColors p.chromeOpacity
        (some fillMask)
    else img0
  let img2 :=
    if p.gradientOverlayEnabled then
      fxGradientOverlay img1 fillMask p.gradientOverlayColors
        (trig p.gradientOverlayAngle).1 (trig p.gradientOverlayAngle).2
        p.gradientOverlayOpacity
    else img1
  let img3 :=
    if p.textureEnabled then
      let texMask := if 1 < p.strokeWidth then fillMask else textMask
      fxTexture loadImage img2 texMask p.texturePath p.textureScale
        p.textureOpacity p.textureBlendMode p.textureImage
    else img2
  let img4 :=
    if p.bevelEmbossEnabled then
      fxBevelEmboss img3 textMask p.bevelEmbossStyle p.bevelEmbossDepth
        (trig p.bevelEmbossAngle).1 (trig p.bevelEmbossAngle).2
        p.bevelEmbossHighlightColor p.bevelEmbossShadowColor
        p.bevelEmbossHighlightOpacity p.bevelEmbossShadowOpacity
        p.bevelEmbossSoften
    else img3
  let img5 :=
    if p.innerShadowEnabled then
      let ishMask := if 1 < p.strokeWidth then fillMask else textMask
      fxInnerShadow img4 ishMask textMask p.innerShadowColor
        p.innerShadowOffset p.innerShadowBlur p.innerShadowOpacity
    else img4
  let img6 :=
    if p.innerGlowEnabled then
      let igMask := if 1 < p.strokeWidth then fillMask else textMask
      fxInnerGlow img5 igMask textMask p.innerGlowColor p.innerGlowSize
        p.innerGlowOpacity
    else img5
  img6

/-!
## Procedural texture generator (`generate_procedural_texture`)
-/

/-- Modelled from the spec: `numpy.random.RandomState(seed)` is an external
deterministic PRNG fully determined by its integer seed; the generator
state is the seed plus a draw counter. -/
structure RandState where
  seed : Nat
  counter : Nat

/-- Construct the generator from the seed (`np.random.RandomState(seed)`). -/
def mkRandState (seed : Nat) : RandState := ⟨seed, 0⟩

/-- Modelled from the spec: one PRNG byte, a fixed integer mixing function
of the seed, the draw counter, and the flat pixel index. -/
def prandAt (seed counter idx : Nat) : Nat :=
  ((seed + 1) * 2654435761 + counter * 40503 + idx * 2246822519 +
    (seed + idx + counter) ^ 2) % 256

/-- Model of `rng.randint(0, 256, (h, w))`: a grid of byte draws plus the
advanced generator state. -/
def randint256Grid (st : RandState) (gridH gridW : Nat) : Gray × RandState :=
  ({ w := gridW, h := gridH, pix := fun x y =>
      prandAt st.seed st.counter (y * gridW + x) },
   ⟨st.seed, st.counter + 1⟩)

/-- Modelled from the spec: `np.exp`, the transcendental exponential
collaborator, modelled by a fixed truncated Taylor series (deterministic in
its argument). -/
def expQ (q : ℚ) : ℚ :=
  (List.range 12).foldl (fun acc (i : Nat) => acc + q ^ i / (Nat.factorial i)) 0

/-- Minimum pixel value of a float grid (`composite.min()`); 0 on an empty
grid. -/
def gridMin (g : GrayQ) : ℚ :=
  match (List.range g.h).flatMap
      (fun y => (List.range g.w).map (fun x => g.pix x y)) with
  | [] => 0
  | v :: vs => vs.foldl min v

/-- Maximum pixel value of a float grid (`composite.max()`); 0 on an empty
grid. -/
def gridMax (g : GrayQ) : ℚ :=
  match (List.range g.h).flatMap
      (fun y => (List.range g.w).map (fun x => g.pix x y)) with
  | [] => 0
  | v :: vs => vs.foldl max v

/-- `generate_procedural_texture`: sum `roughness` octaves of blurred PRNG
noise with weight `1/(1+octave)` and decreasing blur radius, normalize to
`[0, 1]`, apply the sigmoid contrast boost, and mix the two colours. -/
def generateProceduralTexture (width height : Nat)
    (baseColor accentColor : Rgb) (roughness seed : Nat) : Raster :=
  let rng := mkRandState seed
  let start : GrayQ × RandState :=
    ({ w := width, h := height, pix := fun _ _ => 0 }, rng)
  let loop := (List.range roughness).foldl
    (fun (acc : GrayQ × RandState) (octave : Nat) =>
      let drawn := randint256Grid acc.2 height width
      let blurR : ℚ := max 1 ((roughness : ℚ) - (octave : ℚ))
      let blurred := gaussianBlurG blurR drawn.1
      let weight : ℚ := 1 / (1 + (octave : ℚ))
      ({ w := width, h := height, pix := fun x y =>
          acc.1.pix x y + (blurred.pix x y : ℚ) * weight }, drawn.2))
    start
  let composite := loop.1
  let lo := gridMin composite
  let hi := gridMax composite
  let normd : GrayQ :=
    if 0 < hi - lo then
      { w := width, h := height, pix := fun x y =>
          (composite.pix x y - lo) / (hi - lo) }
    else { w := width, h := height, pix := fun _ _ => 1/2 }
  let contrasted : GrayQ :=
    { w := width, h := height, pix := fun x y =>
        1 / (1 + expQ (-6 * (normd.pix x y - 1/2))) }
  { w := width, h := height, pix := fun x y =>
      let t := contrasted.pix x y
      (ratToU8 ((baseColor.1 : ℚ) * (1 - t) + (accentColor.1 : ℚ) * t),
       ratToU8 ((baseColor.2.1 : ℚ) * (1 - t) + (accentColor.2.1 : ℚ) * t),
       ratToU8 ((baseColor.2.2 : ℚ) * (1 - t) + (accentColor.2.2 : ℚ) * t)) }

/-!
## Frame cache indexing (`_render_fancytext_frame`)

The fast path (`cache["np_frames"][max(0, highlight_index)]`) and the cold
path return (`np_frames[max(0, highlight_index)]`) both index the per-line
variant list — one entry per word, entry `i` highlighting word `i` — at the
index clamped from below to 0.
-/

/-- Model of the `_render_fancytext_frame` frame lookup: index the cached
variant list at `max(0, highlight_index)` (Python list indexing on a
non-negative index; `none` models `IndexError`). -/
def renderCachedFrame (npFrames : List RasterA) (highlightIndex : Int) :
    Option RasterA :=
  npFrames[(max 0 highlightIndex).toNat]?

/-!
## The compositor (`CompositeVideoClip.py`)

The `VideoClip` base class lives outside this repository's sources; the
pieces of it the compositor reads (`new_blit_on`, `get_frame_uint8`,
`is_playing`, `_cached_pil`, `_cached_uint8`, positions) are modelled from
the spec's Layer data model.  Colour rasters are RGB (the numpy path drops
alpha channels and converts grayscale, so all content reaches the canvas as
RGB).  Only colour composites are modelled: `is_mask=True` composites skip
`_precompute_compositing` in the source and use a separate mask-channel
path that no claim depends on.
-/

/-- The mask clip attached to a layer: an optional static cached raster
(`_cached_pil`) plus the per-time mask frame. -/
structure MaskClip where
  cachedPil : Option Gray
  frameAt : ℚ → Gray

/-- A video layer: the slice of `VideoClip` state the compositor reads.
`cachedPil` and `cachedUint8` model `_cached_pil` / `_cached_uint8`
(present only for immutable raster content); `frameAt` the frame source;
`pos` the resolved pixel position over time; `start`/`stop` the time window
(`stop = none` is an unset end); `layer_index` the z-order key. -/
structure VClip where
  size : Nat × Nat
  cachedPil : Option Raster
  cachedUint8 : Option Raster
  frameAt : ℚ → Raster
  mask : Option MaskClip
  pos : ℚ → Int × Int
  start : ℚ
  stop : Option ℚ
  layer_index : Int

/-- Modelled from the spec: `VideoClip.new_blit_on(t, w, h)` (defined
outside src/) resolves the layer's frame, integer pixel position, and mask
at time `t`; a `None` result signals an empty blit, which this model never
produces. -/
def newBlitOn (c : VClip) (t : ℚ) :
    Option (Raster × (Int × Int) × Option Gray) :=
  some (c.frameAt t, c.pos t, c.mask.map (fun m => m.frameAt t))

/-- PIL `crop((x1, y1, x2, y2))` / numpy slice `[y1:y2, x1:x2]`. -/
def cropR {π : Type} (r : Img π) (x1 y1 x2 y2 : Nat) : Img π :=
  { w := x2 - x1, h := y2 - y1, pix := fun x y => r.pix (x + x1) (y + y1) }

/-- PIL `canvas.paste(src, (dx, dy))`: opaque blit. -/
def pasteOpaque (dst src : Raster) (dx dy : Nat) : Raster :=
  { dst with pix := fun x y =>
      if dx ≤ x ∧ x < dx + src.w ∧ dy ≤ y ∧ y < dy + src.h then
        src.pix (x - dx) (y - dy)
      else dst.pix x y }

/-- PIL `canvas.paste(src, (dx, dy), mask)`: blend by the 8-bit mask in
PIL's rounded fixed-point arithmetic. -/
def pasteMasked (dst src : Raster) (msk : Gray) (dx dy : Nat) : Raster :=
  { dst with pix := fun x y =>
      if dx ≤ x ∧ x < dx + src.w ∧ dy ≤ y ∧ y < dy + src.h then
        let m := msk.pix (x - dx) (y - dy)
        let s := src.pix (x - dx) (y - dy)
        let d := dst.pix x y
        ((d.1 * (255 - m) + s.1 * m + 127) / 255,
         (d.2.1 * (255 - m) + s.2.1 * m + 127) / 255,
         (d.2.2 * (255 - m) + s.2.2 * m + 127) / 255)
      else dst.pix x y }

/-- numpy slice assignment `current[dy1:dy2, dx1:dx2] = src`. -/
def sliceAssign (dst src : Raster) (dy1 dy2 dx1 dx2 : Nat) : Raster :=
  { dst with pix := fun x y =>
      if dx1 ≤ x ∧ x < dx2 ∧ dy1 ≤ y ∧ y < dy2 then
        src.pix (x - dx1) (y - dy1)
      else dst.pix x y }

/-- Pre-computed PIL blit data: `(sp, mp, dst_x1, dst_y1, has_mask)`. -/
structure BlitPil where
  sp : Raster
  mp : Option Gray
  dx : Nat
  dy : Nat
  hasMask : Bool

/-- Pre-computed numpy blit data: `(src_slice, dy1, dy2, dx1, dx2)`. -/
structure BlitNp where
  src : Raster
  dy1 : Nat
  dy2 : Nat
  dx1 : Nat
  dx2 : Nat

/-- The off-screen test and source/destination rectangle clamping shared by
`_precompute_compositing` and the dynamic fallbacks of the frame paths:
`none` when the layer lies entirely off-canvas or the clipped source
rectangle is degenerate. -/
def blitRect (fullW fullH cw ch : Nat) (x y : Int) :
    Option (Int × Int × Int × Int × Int × Int) :=
  if x ≤ -(cw : Int) ∨ (fullW : Int) ≤ x ∨ y ≤ -(ch : Int) ∨
      (fullH : Int) ≤ y then none
  else
    let sx1 := max 0 (-x)
    let sy1 := max 0 (-y)
    let sx2 := min (cw : Int) ((fullW : Int) - x)
    let sy2 := min (ch : Int) ((fullH : Int) - y)
    let dx1 := max 0 x
    let dy1 := max 0 y
    if sx2 ≤ sx1 ∨ sy2 ≤ sy1 then none
    else some (sx1, sy1, sx2, sy2, dx1, dy1)

/-- The guard prefix of the per-clip `_precompute_compositing` loop body:
`none` when any `continue` fires before the blit entries are recorded
(no cached content, mask without cached content, position differing between
t = 0 and t = 1.0, empty blit, off-canvas, or degenerate rectangle);
otherwise the cached source, the cached mask, and the clamped rectangle.
The `no_crop` fast path of the source pastes the uncropped image, which
coincides pixel-for-pixel with the full-range crop taken here. -/
def precompCore (fullW fullH : Nat) (c : VClip) :
    Option (Raster × Option Gray × Int × Int × Int × Int × Int × Int) :=
  match c.cachedPil with
  | none => none
  | some srcPil =>
    let maskPil : Option Gray :=
      match c.mask with
      | some m => m.cachedPil
      | none => none
    if c.mask.isSome ∧ maskPil.isNone then none
    else if c.pos 0 ≠ c.pos 1 then none
    else
      match newBlitOn c c.start with
      | none => none
      | some (_, (x, y), _) =>
        match blitRect fullW fullH srcPil.w srcPil.h x y with
        | none => none
        | some (sx1, sy1, sx2, sy2, dx1, dy1) =>
          some (srcPil, maskPil, sx1, sy1, sx2, sy2, dx1, dy1)

/-- The PIL blit dictionary entry for one clip (`self._clip_blit_pil[i]`). -/
def pilBlitOf (fullW fullH : Nat) (c : VClip) : Option BlitPil :=
  match precompCore fullW fullH c with
  | none => none
  | some (srcPil, maskPil, sx1, sy1, sx2, sy2, dx1, dy1) =>
    some { sp := cropR srcPil sx1.toNat sy1.toNat sx2.toNat sy2.toNat,
           mp := maskPil.map (fun m =>
             cropR m sx1.toNat sy1.toNat sx2.toNat sy2.toNat),
           dx := dx1.toNat, dy := dy1.toNat, hasMask := c.mask.isSome }

/-- The numpy blit dictionary entry for one clip (`self._clip_blit_np[i]`):
recorded in the same guarded region, additionally requiring
`_cached_uint8`. -/
def npBlitOf (fullW fullH : Nat) (c : VClip) : Option BlitNp :=
  match precompCore fullW fullH c with
  | none => none
  | some (_, _, sx1, sy1, sx2, sy2, dx1, dy1) =>
    match c.cachedUint8 with
    | none => none
    | some cached =>
      some { src := cropR cached sx1.toNat sy1.toNat sx2.toNat sy2.toNat,
             dy1 := dy1.toNat, dy2 := dy1.toNat + (sy2 - sy1).toNat,
             dx1 := dx1.toNat, dx2 := dx1.toNat + (sx2 - sx1).toNat }

/-- The per-clip contribution to `all_static`: false when the clip lacks a
cached PIL image (or has a mask lacking one), or its position differs
between t = 0 and t = 1.0; the remaining `continue` branches leave
`all_static` untouched. -/
def staticOkF (c : VClip) : Bool :=
  match c.cachedPil with
  | none => false
  | some _ =>
    let maskPil : Option Gray :=
      match c.mask with
      | some m => m.cachedPil
      | none => none
    if c.mask.isSome ∧ maskPil.isNone then false
    else decide (c.pos 0 = c.pos 1)

/-- The per-clip contribution to `all_always_playing`: the check runs only
for clips whose blit entry was recorded (the earlier `continue` branches
skip it), and fails when `start ≠ 0` or the clip ends before the
composite's duration. -/
def alwaysOkF (fullW fullH : Nat) (duration : Option ℚ) (c : VClip) : Bool :=
  match precompCore fullW fullH c with
  | none => true
  | some _ =>
    if c.start ≠ 0 then false
    else
      match duration, c.stop with
      | some d, some e => decide (d ≤ e)
      | _, _ => true

/-- `_make_numpy_canvas`: the background frame at `t - bg.start` as RGB,
top-left-cropped to the canvas when large enough, otherwise copied into a
zero canvas. -/
def makeNumpyCanvas (bg : VClip) (fullW fullH : Nat) (t : ℚ) : Raster :=
  let b := bg.frameAt (t - bg.start)
  if fullH ≤ b.h ∧ fullW ≤ b.w then
    { w := fullW, h := fullH, pix := fun x y => b.pix x y }
  else
    { w := fullW, h := fullH, pix := fun x y =>
        if x < min b.w fullW ∧ y < min b.h fullH then b.pix x y
        else (0, 0, 0) }

/-- The canvas initialization shared by `_frame_pil_canvas` and the static
pre-render: the background's cached PIL image when it matches the output
size, else the numpy canvas at `t`. -/
def pilBase (bg : VClip) (fullW fullH : Nat) (t : ℚ) : Raster :=
  match bg.cachedPil with
  | some bp =>
    if bp.w = fullW ∧ bp.h = fullH then bp
    else makeNumpyCanvas bg fullW fullH t
  | none => makeNumpyCanvas bg fullW fullH t

/-- One cached-blit paste: `canvas.paste(sp, (dx, dy), mp)` when the clip
has a mask and the cached mask exists, else the opaque paste. -/
def pastePilBlit (cv : Raster) (b : BlitPil) : Raster :=
  match b.hasMask, b.mp with
  | true, some m => pasteMasked cv b.sp m b.dx b.dy
  | _, _ => pasteOpaque cv b.sp b.dx b.dy

/-- Inline `is_playing`:
`clip.start <= t and (clip.end is None or t < clip.end)`. -/
def isPlayingB (c : VClip) (t : ℚ) : Bool :=
  decide (c.start ≤ t) &&
    (match c.stop with
     | none => true
     | some e => decide (t < e))

/-- The dynamic-clip fallback of `_frame_pil_canvas`: recompute the blit at
time `t` and paste, with the cropped mask when present. -/
def pilFallback (fullW fullH : Nat) (cv : Raster) (c : VClip) (t : ℚ) :
    Raster :=
  match newBlitOn c t with
  | none => cv
  | some (img, (x, y), maskT) =>
    match blitRect fullW fullH img.w img.h x y with
    | none => cv
    | some (sx1, sy1, sx2, sy2, dx1, dy1) =>
      let sp := cropR img sx1.toNat sy1.toNat sx2.toNat sy2.toNat
      match maskT with
      | some mk =>
        pasteMasked cv sp (cropR mk sx1.toNat sy1.toNat sx2.toNat sy2.toNat)
          dx1.toNat dy1.toNat
      | none => pasteOpaque cv sp dx1.toNat dy1.toNat

/-- The dynamic-clip fallback of `_frame_numpy`: recompute the blit at time
`t` and slice-assign the cropped RGB content (the pure numpy path ignores
masks). -/
def npFallback (fullW fullH : Nat) (cv : Raster) (c : VClip) (t : ℚ) :
    Raster :=
  match newBlitOn c t with
  | none => cv
  | some (img, (x, y), _) =>
    match blitRect fullW fullH img.w img.h x y with
    | none => cv
    | some (sx1, sy1, sx2, sy2, dx1, dy1) =>
      sliceAssign cv (cropR img sx1.toNat sy1.toNat sx2.toNat sy2.toNat)
        dy1.toNat (dy1.toNat + (sy2 - sy1).toNat)
        dx1.toNat (dx1.toNat + (sx2 - sx1).toNat)

/-- The static pre-render at the end of `_precompute_compositing`: when
every clip is static and always playing and at least one PIL blit was
recorded, paste all recorded blits in ascending clip order onto the t = 0
canvas. -/
def computeCachedFrame (fullW fullH : Nat) (duration : Option ℚ)
    (clips : List VClip) (bg : VClip) : Option Raster :=
  if clips.all staticOkF && clips.all (alwaysOkF fullW fullH duration) &&
      (clips.map (pilBlitOf fullW fullH)).any Option.isSome then
    some ((clips.map (pilBlitOf fullW fullH)).foldl (fun cv ob =>
      match ob with
      | some b => pastePilBlit cv b
      | none => cv) (pilBase bg fullW fullH 0))
  else none

/-- Modelled from the spec: `ColorClip(size, color)` (defined outside
src/) — a layer whose every frame is the constant colour raster, with
static cached content, position `(0, 0)`, start 0, and no end. -/
def colorClip (size : Nat × Nat) (color : Rgb) : VClip :=
  let r : Raster := { w := size.1, h := size.2, pix := fun _ _ => color }
  { size := size, cachedPil := some r, cachedUint8 := some r,
    frameAt := fun _ => r, mask := none, pos := fun _ => (0, 0),
    start := 0, stop := none, layer_index := 0 }

/-- The z-order key order used by `sorted(self.clips, key=...)`. -/
def layerLE (a b : VClip) : Prop := a.layer_index ≤ b.layer_index

instance : DecidableRel layerLE := fun a b =>
  inferInstanceAs (Decidable (a.layer_index ≤ b.layer_index))

instance : IsTotal VClip layerLE :=
  ⟨fun a b => Int.le_total a.layer_index b.layer_index⟩

instance : IsTrans VClip layerLE :=
  ⟨fun _ _ _ h1 h2 => le_trans h1 h2⟩

/-- `sorted(self.clips, key=lambda clip: clip.layer_index)`: Python's
`sorted` is a stable sort, modelled by stable insertion sort. -/
def sortClips (clips : List VClip) : List VClip :=
  List.insertionSort layerLE clips

/-- The ways `CompositeVideoClip.__init__` can raise. -/
inductive InitError where
  | indexError
  | emptyMax
deriving DecidableEq

/-- The slice of `CompositeVideoClip` state the frame paths read. -/
structure Composite where
  size : Nat × Nat
  isMask : Bool
  clips : List VClip
  bg : VClip
  createdBg : Bool
  duration : Option ℚ
  anyMasks : Bool
  blitPil : List (Option BlitPil)
  blitNp : List (Option BlitNp)
  cachedFrame : Option Raster

/-- `CompositeVideoClip.__init__` for colour composites.  The paired mask
composite, fps, and audio aggregation are omitted: they do not affect the
colour frame paths modelled here.  `indexError` models `clips[0]` on an
empty list; `emptyMax` models `max(ends)` on an empty sequence
(a `ValueError`), reached whenever no clip has an unset end — in
particular always for an empty clip list. -/
def compositeInit (clips0 : List VClip) (size0 : Option (Nat × Nat))
    (bgColor : Option Rgb) (useBgclip : Bool) (isMask : Bool) :
    Except InitError Composite :=
  match (match size0 with
         | some s => Except.ok s
         | none =>
           match clips0 with
           | [] => Except.error InitError.indexError
           | c :: _ => Except.ok c.size :
         Except InitError (Nat × Nat)) with
  | Except.error e => Except.error e
  | Except.ok size =>
    let bgFill : Rgb := bgColor.getD (0, 0, 0)
    match (if useBgclip then
             match clips0 with
             | [] => Except.error InitError.indexError
             | c :: rest =>
               Except.ok ((if c.mask.isNone then false else bgColor.isNone),
                 c, rest, false)
           else
             Except.ok (bgColor.isNone, colorClip size bgFill, clips0,
               true) :
           Except InitError (Bool × VClip × List VClip × Bool)) with
    | Except.error e => Except.error e
    | Except.ok resolved =>
      let bg := resolved.2.1
      let createdBg := resolved.2.2.2
      let clipsSorted := sortClips resolved.2.2.1
      let ends := clipsSorted.map (fun c => c.stop)
      match (if ends.all Option.isSome then
               match (ends.filterMap id).max? with
               | some d => Except.ok (some d)
               | none => Except.error InitError.emptyMax
             else Except.ok none : Except InitError (Option ℚ)) with
      | Except.error e => Except.error e
      | Except.ok duration =>
        Except.ok
          { size := size, isMask := isMask, clips := clipsSorted, bg := bg,
            createdBg := createdBg, duration := duration,
            anyMasks := clipsSorted.any (fun c => c.mask.isSome),
            blitPil := if isMask then []
              else clipsSorted.map (pilBlitOf size.1 size.2),
            blitNp := if isMask then []
              else clipsSorted.map (npBlitOf size.1 size.2),
            cachedFrame := if isMask then none
              else computeCachedFrame size.1 size.2 duration clipsSorted
                bg }

/-- `_frame_pil_canvas`: paste every playing clip in layer order onto the
background canvas, using the pre-computed PIL blit when present and the
dynamic fallback otherwise. -/
def framePilCanvas (comp : Composite) (t : ℚ) : Raster :=
  (comp.clips.zip comp.blitPil).foldl (fun cv cb =>
    if isPlayingB cb.1 t then
      match cb.2 with
      | some b => pastePilBlit cv b
      | none => pilFallback comp.size.1 comp.size.2 cv cb.1 t
    else cv)
    (pilBase comp.bg comp.size.1 comp.size.2 t)

/-- `_frame_numpy`: slice-assign every playing clip in layer order onto the
numpy canvas, using the pre-computed numpy blit when present and the
dynamic fallback otherwise. -/
def frameNumpy (comp : Composite) (t : ℚ) : Raster :=
  (comp.clips.zip comp.blitNp).foldl (fun cv cb =>
    if isPlayingB cb.1 t then
      match cb.2 with
      | some b => sliceAssign cv b.src b.dy1 b.dy2 b.dx1 b.dx2
      | none => npFallback comp.size.1 comp.size.2 cv cb.1 t
    else cv)
    (makeNumpyCanvas comp.bg comp.size.1 comp.size.2 t)

/-- The non-cached flattening dispatch of `frame_function` for colour
composites. -/
def freshFrame (comp : Composite) (t : ℚ) : Raster :=
  if comp.anyMasks then framePilCanvas comp t else frameNumpy comp t

/-- `frame_function` for colour composites: the pre-rendered static frame
when the cache is set, else the fresh flattening. -/
def frameFunction (comp : Composite) (t : ℚ) : Raster :=
  match comp.cachedFrame with
  | some f => f
  | none => freshFrame comp t

/-- Static-cache precondition 1 (content): the layer's content is an
immutable non-function raster — both caches carry the same raster the
frame source always returns. -/
def StaticContent (c : VClip) : Prop :=
  ∃ r : Raster, c.cachedPil = some r ∧ c.cachedUint8 = some r ∧
    ∀ t : ℚ, c.frameAt t = r

/-- Static-cache precondition 1 for a layer's mask, when present: the mask
has cached content that its frame source always returns. -/
def StaticMask (c : VClip) : Prop :=
  ∀ m : MaskClip, c.mask = some m →
    ∃ g : Gray, m.cachedPil = some g ∧ ∀ t : ℚ, m.frameAt t = g

/-- Static-cache precondition 2: the layer's position is constant over
time. -/
def ConstPos (c : VClip) : Prop :=
  ∀ t u : ℚ, c.pos t = c.pos u

/-- Static-cache precondition 3: the layer is active from time 0 for the
composite's entire duration. -/
def FullWindow (duration : Option ℚ) (c : VClip) : Prop :=
  c.start = 0 ∧
    (c.stop = none ∨
      ∃ d e : ℚ, duration = some d ∧ c.stop = some e ∧ d ≤ e)

/-- The background analogue of the static preconditions: the background's
frame is time-invariant and agrees with its cached PIL image when one
exists (as holds for the `ColorClip` background `__init__` creates). -/
def StaticBg (bg : VClip) : Prop :=
  (∀ t : ℚ, bg.frameAt t = bg.frameAt 0) ∧
    ∀ bp : Raster, bg.cachedPil = some bp → bg.frameAt 0 = bp

/-- The payload of a successful construction (an arbitrary default for the
error case). -/
def okD (x : Except InitError Composite) (d : Composite) : Composite :=
  match x with
  | Except.ok c => c
  | Except.error _ => d

/-- The constant content raster of the C1 counterexample layer. -/
def cexRaster : Raster := { w := 2, h := 2, pix := fun _ _ => (7, 7, 7) }

/-- The C1 counterexample layer: static cached content, but a position that
moves at every time other than the two sampled ones (t = 0 and t = 1.0) —
in particular at t = 1/2, inside its lifetime [0, 1]. -/
def cexClip : VClip :=
  { size := (2, 2), cachedPil := some cexRaster,
    cachedUint8 := some cexRaster, frameAt := fun _ => cexRaster,
    mask := none,
    pos := fun t => if t = 0 ∨ t = 1 then (0, 0) else (1, 0),
    start := 0, stop := some 1, layer_index := 0 }

/-- An arbitrary composite, used as the default of `okD`. -/
def cexDummy : Composite :=
  { size := (0, 0), isMask := false, clips := [],
    bg := colorClip (0, 0) (0, 0, 0), createdBg := true, duration := none,
    anyMasks := false, blitPil := [], blitNp := [], cachedFrame := none }

theorem Img.eq_of {π : Type} {a b : Img π} (hw : a.w = b.w) (hh : a.h = b.h)
    (hp : ∀ x y, a.pix x y = b.pix x y) : a = b := by
  cases a; cases b
  cases hw; cases hh
  have : ∀ f g : Nat → Nat → π, (∀ x y, f x y = g x y) → f = g := by
    intro f g h
    funext x y
    exact h x y
  simp only [Img.mk.injEq, true_and]
  exact this _ _ hp

theorem pyInt_nonneg {q : ℚ} (h : 0 ≤ q) : pyInt q = ⌊q⌋ := by
  unfold pyInt
  rw [if_neg (not_lt.mpr h)]

theorem pyInt_mono {a b : ℚ} (ha : 0 ≤ a) (hab : a ≤ b) :
    pyInt a ≤ pyInt b := by
  rw [pyInt_nonneg ha, pyInt_nonneg (le_trans ha hab)]
  exact Int.floor_le_floor hab

theorem lineFrameIndex_nonneg {wd t : ℚ} {n : Nat} (hwd : 0 < wd)
    (ht : 0 ≤ t) (hn : 1 ≤ n) : 0 ≤ lineFrameIndex wd n t := by
  unfold lineFrameIndex
  have h1 : (0 : ℚ) ≤ t / wd := div_nonneg ht (le_of_lt hwd)
  rw [pyInt_nonneg h1]
  refine le_min ?_ ?_
  · exact Int.floor_nonneg.mpr h1
  · omega

theorem lineFrameIndex_toNat {wd t : ℚ} {n : Nat} (hwd : 0 < wd)
    (ht : 0 ≤ t) (hn : 1 ≤ n) :
    (lineFrameIndex wd n t).toNat = min (Int.toNat ⌊t / wd⌋) (n - 1) := by
  unfold lineFrameIndex
  have h1 : (0 : ℚ) ≤ t / wd := div_nonneg ht (le_of_lt hwd)
  rw [pyInt_nonneg h1]
  omega

theorem lineMakeFrame_eq {frames : List Raster} {wd t : ℚ} {n : Nat}
    (hwd : 0 < wd) (ht : 0 ≤ t) (hn : 1 ≤ n) :
    lineMakeFrame frames wd n t =
      frames[min (Int.toNat ⌊t / wd⌋) (n - 1)]? := by
  unfold lineMakeFrame pyListGet
  rw [if_pos (lineFrameIndex_nonneg hwd ht hn),
    lineFrameIndex_toNat hwd ht hn]

theorem lineMakeMaskFrame_eq {frames : List GrayQ} {wd t : ℚ} {n : Nat}
    (hwd : 0 < wd) (ht : 0 ≤ t) (hn : 1 ≤ n) :
    lineMakeMaskFrame frames wd n t =
      frames[min (Int.toNat ⌊t / wd⌋) (n - 1)]? := by
  unfold lineMakeMaskFrame pyListGet
  rw [if_pos (lineFrameIndex_nonneg hwd ht hn),
    lineFrameIndex_toNat hwd ht hn]

/-- C2: for a line of `n` words with per-word duration `wd > 0` and any
`0 ≤ t` inside the line's span, `_make_frame` and `_make_mask_frame` return
the frame at index `min(floor(t / wd), n - 1)`; that index never exceeds
`n - 1` and is non-decreasing in `t`. -/
theorem claim_C2 (rgbFrames : List Raster) (alphaFrames : List GrayQ)
    (wd t : ℚ) (n : Nat)
    (hlen : rgbFrames.length = n) (hlena : alphaFrames.length = n)
    (hn : 1 ≤ n) (hwd : 0 < wd) (ht : 0 ≤ t) (hspan : t ≤ (n : ℚ) * wd) :
    lineMakeFrame rgbFrames wd n t =
        rgbFrames[min (Int.toNat ⌊t / wd⌋) (n - 1)]? ∧
    lineMakeMaskFrame alphaFrames wd n t =
        alphaFrames[min (Int.toNat ⌊t / wd⌋) (n - 1)]? ∧
    min (Int.toNat ⌊t / wd⌋) (n - 1) ≤ n - 1 ∧
    ∀ t', t ≤ t' → lineFrameIndex wd n t ≤ lineFrameIndex wd n t' := by
  refine ⟨lineMakeFrame_eq hwd ht hn, lineMakeMaskFrame_eq hwd ht hn,
    Nat.min_le_right _ _, ?_⟩
  intro t' htt
  unfold lineFrameIndex
  have h1 : (0 : ℚ) ≤ t / wd := div_nonneg ht (le_of_lt hwd)
  have h2 : t / wd ≤ t' / wd := by
    gcongr
  exact min_le_min (pyInt_mono h1 h2) le_rfl

/-- Witness for C2 at the spec scenario: a one-word line of duration 2.0 s,
so `wd = 2.0 × 0.9 / 1 = 9/5`, sampled at `t = 1`. -/
theorem claim_C2_witness :
    lineMakeFrame [⟨1, 1, fun _ _ => (0, 0, 0)⟩] (9/5) 1 1 =
        [(⟨1, 1, fun _ _ => (0, 0, 0)⟩ : Raster)][min (Int.toNat ⌊(1 : ℚ) / (9/5)⌋) 0]? ∧
    lineMakeMaskFrame [⟨1, 1, fun _ _ => 0⟩] (9/5) 1 1 =
        [(⟨1, 1, fun _ _ => 0⟩ : GrayQ)][min (Int.toNat ⌊(1 : ℚ) / (9/5)⌋) 0]? ∧
    min (Int.toNat ⌊(1 : ℚ) / (9/5)⌋) 0 ≤ 0 ∧
    ∀ t', (1 : ℚ) ≤ t' → lineFrameIndex (9/5) 1 1 ≤ lineFrameIndex (9/5) 1 t' :=
  claim_C2 [⟨1, 1, fun _ _ => (0, 0, 0)⟩] [⟨1, 1, fun _ _ => 0⟩] (9/5) 1 1
    rfl rfl (by norm_num) (by norm_num) (by norm_num) (by norm_num)

theorem group_fold_spec (lineWidthPx : List String → Nat)
    (maxWords maxWidthPx : Nat) (hm : 1 ≤ maxWords) :
    ∀ (ws : List String) (lines : List (List String)) (current : List String),
      (∀ l ∈ lines, l ≠ [] ∧ l.length ≤ maxWords) →
      current.length ≤ maxWords →
      (∀ l ∈ (ws.foldl (groupStep lineWidthPx maxWords maxWidthPx)
          (lines, current)).1, l ≠ [] ∧ l.length ≤ maxWords) ∧
      (ws.foldl (groupStep lineWidthPx maxWords maxWidthPx)
          (lines, current)).2.length ≤ maxWords ∧
      (ws.foldl (groupStep lineWidthPx maxWords maxWidthPx)
            (lines, current)).1.flatten ++
          (ws.foldl (groupStep lineWidthPx maxWords maxWidthPx)
            (lines, current)).2 =
        lines.flatten ++ current ++ ws := by
  intro ws
  induction ws with
  | nil =>
    intro lines current hlines hcur
    simpa using ⟨hlines, hcur⟩
  | cons w rest ih =>
    intro lines current hlines hcur
    rw [List.foldl_cons]
    by_cases h1 : maxWords < (current ++ [w]).length
    · have hcne : current ≠ [] := by
        intro hemp
        rw [hemp] at h1
        simp at h1
        omega
      have hstep : groupStep lineWidthPx maxWords maxWidthPx (lines, current) w
          = (lines ++ [current], [w]) := by
        unfold groupStep
        simp only [if_pos h1, if_neg hcne]
      rw [hstep]
      have hlines2 : ∀ l ∈ lines ++ [current], l ≠ [] ∧ l.length ≤ maxWords := by
        intro l hl
        rcases List.mem_append.mp hl with h | h
        · exact hlines l h
        · rcases List.mem_singleton.mp h with rfl
          exact ⟨hcne, hcur⟩
      have := ih (lines ++ [current]) [w] hlines2 (by simpa using hm)
      refine ⟨this.1, this.2.1, ?_⟩
      rw [this.2.2]
      simp
    · by_cases h2 : maxWidthPx < lineWidthPx (current ++ [w]) ∧ current ≠ []
      · have hstep : groupStep lineWidthPx maxWords maxWidthPx
            (lines, current) w = (lines ++ [current], [w]) := by
          unfold groupStep
          simp only [if_neg h1, if_pos h2]
        rw [hstep]
        have hlines2 : ∀ l ∈ lines ++ [current],
            l ≠ [] ∧ l.length ≤ maxWords := by
          intro l hl
          rcases List.mem_append.mp hl with h | h
          · exact hlines l h
          · rcases List.mem_singleton.mp h with rfl
            exact ⟨h2.2, hcur⟩
        have := ih (lines ++ [current]) [w] hlines2 (by simpa using hm)
        refine ⟨this.1, this.2.1, ?_⟩
        rw [this.2.2]
        simp
      · have hstep : groupStep lineWidthPx maxWords maxWidthPx
            (lines, current) w = (lines, current ++ [w]) := by
          unfold groupStep
          simp only [if_neg h1, if_neg h2]
        rw [hstep]
        have hcand : (current ++ [w]).length ≤ maxWords := by
          simpa using Nat.not_lt.mp h1
        have := ih lines (current ++ [w]) hlines hcand
        refine ⟨this.1, this.2.1, ?_⟩
        rw [this.2.2]
        simp

theorem group_fold_count (lineWidthPx : List String → Nat)
    (maxWords maxWidthPx : Nat) (hm : 1 ≤ maxWords)
    (hwide : ∀ c, lineWidthPx c ≤ maxWidthPx) :
    ∀ (ws : List String) (lines : List (List String)) (current : List String),
      1 ≤ current.length → current.length ≤ maxWords →
      (ws.foldl (groupStep lineWidthPx maxWords maxWidthPx)
            (lines, current)).1.length * maxWords +
          (ws.foldl (groupStep lineWidthPx maxWords maxWidthPx)
            (lines, current)).2.length =
        lines.length * maxWords + current.length + ws.length ∧
      1 ≤ (ws.foldl (groupStep lineWidthPx maxWords maxWidthPx)
            (lines, current)).2.length ∧
      (ws.foldl (groupStep lineWidthPx maxWords maxWidthPx)
            (lines, current)).2.length ≤ maxWords := by
  intro ws
  induction ws with
  | nil =>
    intro lines current h1 h2
    simpa using ⟨h1, h2⟩
  | cons w rest ih =>
    intro lines current hcur1 hcur2
    rw [List.foldl_cons]
    by_cases hb1 : maxWords < (current ++ [w]).length
    · have hclen : current.length = maxWords := by
        simp at hb1
        omega
      have hcne : current ≠ [] := by
        intro hemp
        rw [hemp] at hcur1
        simp at hcur1
      have hstep : groupStep lineWidthPx maxWords maxWidthPx
          (lines, current) w = (lines ++ [current], [w]) := by
        unfold groupStep
        simp only [if_pos hb1, if_neg hcne]
      rw [hstep]
      have := ih (lines ++ [current]) [w] (by simp) (by simpa using hm)
      refine ⟨?_, this.2.1, this.2.2⟩
      rw [this.1]
      simp only [List.length_append, List.length_cons, List.length_nil,
        List.length_singleton]
      rw [Nat.add_mul, Nat.one_mul, hclen]
      omega
    · have hb2 : ¬(maxWidthPx < lineWidthPx (current ++ [w]) ∧
          current ≠ []) := by
        intro hc
        exact absurd (hwide (current ++ [w])) (not_le.mpr hc.1)
      have hstep : groupStep lineWidthPx maxWords maxWidthPx
          (lines, current) w = (lines, current ++ [w]) := by
        unfold groupStep
        simp only [if_neg hb1, if_neg hb2]
      rw [hstep]
      have hcand1 : 1 ≤ (current ++ [w]).length := by simp
      have hcand2 : (current ++ [w]).length ≤ maxWords := by
        simpa using Nat.not_lt.mp hb1
      have := ih lines (current ++ [w]) hcand1 hcand2
      refine ⟨?_, this.2.1, this.2.2⟩
      rw [this.1]
      simp
      omega

theorem ceilDiv_le_of_le {n L maxW : Nat} (hm : 1 ≤ maxW)
    (h : n ≤ L * maxW) : ceilDiv n maxW ≤ L := by
  unfold ceilDiv
  have h2 : n + maxW - 1 < (L + 1) * maxW := by
    have e : (L + 1) * maxW = L * maxW + maxW := by ring
    omega
  exact Nat.lt_succ_iff.mp ((Nat.div_lt_iff_lt_mul (by omega)).mpr h2)

theorem ceilDiv_eq_succ {n L maxW : Nat} (hm : 1 ≤ maxW)
    (h1 : L * maxW < n) (h2 : n ≤ L * maxW + maxW) :
    ceilDiv n maxW = L + 1 := by
  unfold ceilDiv
  have e1 : (L + 1) * maxW = L * maxW + maxW := by ring
  have e2 : (L + 1 + 1) * maxW = L * maxW + maxW + maxW := by ring
  exact Nat.div_eq_of_lt_le (by omega) (by omega)

theorem groupWordsIntoLines_eq (lineWidthPx : List String → Nat)
    (maxWords maxWidthPx : Nat) (words : List String) :
    groupWordsIntoLines lineWidthPx maxWords maxWidthPx words =
      if (words.foldl (groupStep lineWidthPx maxWords maxWidthPx)
          ([], [])).2 = [] then
        (words.foldl (groupStep lineWidthPx maxWords maxWidthPx) ([], [])).1
      else
        (words.foldl (groupStep lineWidthPx maxWords maxWidthPx)
            ([], [])).1 ++
          [(words.foldl (groupStep lineWidthPx maxWords maxWidthPx)
            ([], [])).2] := rfl

/-- C4: for a non-empty word list, the greedy line packer produces at least
`ceil(word_count / max_words_per_line)` lines (exactly that many when the
pixel-width cap never triggers), no line holds more than
`max_words_per_line` words, and concatenating the lines restores the input
word sequence. -/
theorem claim_C4 (lineWidthPx : List String → Nat)
    (maxWords maxWidthPx : Nat) (words : List String)
    (hne : words ≠ []) (hm : 1 ≤ maxWords) :
    (∀ l ∈ groupWordsIntoLines lineWidthPx maxWords maxWidthPx words,
        l.length ≤ maxWords) ∧
    (groupWordsIntoLines lineWidthPx maxWords maxWidthPx words).flatten
        = words ∧
    ceilDiv words.length maxWords ≤
        (groupWordsIntoLines lineWidthPx maxWords maxWidthPx words).length ∧
    ((∀ c, lineWidthPx c ≤ maxWidthPx) →
      (groupWordsIntoLines lineWidthPx maxWords maxWidthPx words).length =
        ceilDiv words.length maxWords) := by
  obtain ⟨hlines, hcur, hflat⟩ := group_fold_spec lineWidthPx maxWords
    maxWidthPx hm words [] [] (by simp) (by simp)
  simp only [List.flatten_nil, List.nil_append] at hflat
  have hG := groupWordsIntoLines_eq lineWidthPx maxWords maxWidthPx words
  have hresflat : (groupWordsIntoLines lineWidthPx maxWords maxWidthPx
      words).flatten = words := by
    rw [hG]
    by_cases h : (words.foldl (groupStep lineWidthPx maxWords maxWidthPx)
        ([], [])).2 = []
    · rw [if_pos h]
      rw [h] at hflat
      simpa using hflat
    · rw [if_neg h]
      simpa using hflat
  have hresbound : ∀ l ∈ groupWordsIntoLines lineWidthPx maxWords maxWidthPx
      words, l.length ≤ maxWords := by
    rw [hG]
    by_cases h : (words.foldl (groupStep lineWidthPx maxWords maxWidthPx)
        ([], [])).2 = []
    · rw [if_pos h]
      intro l hl
      exact (hlines l hl).2
    · rw [if_neg h]
      intro l hl
      rcases List.mem_append.mp hl with hh | hh
      · exact (hlines l hh).2
      · rcases List.mem_singleton.mp hh with rfl
        exact hcur
  refine ⟨hresbound, hresflat, ?_, ?_⟩
  · -- lower bound: the total word count is at most lines × maxWords
    have hsum : words.length ≤
        (groupWordsIntoLines lineWidthPx maxWords maxWidthPx words).length
          * maxWords := by
      conv_lhs => rw [← hresflat]
      rw [List.length_flatten]
      calc ((groupWordsIntoLines lineWidthPx maxWords maxWidthPx
              words).map List.length).sum
          ≤ ((groupWordsIntoLines lineWidthPx maxWords maxWidthPx
              words).map List.length).length • maxWords := by
            apply List.sum_le_card_nsmul
            intro x hx
            rcases List.mem_map.mp hx with ⟨l, hl, rfl⟩
            exact hresbound l hl
        _ = (groupWordsIntoLines lineWidthPx maxWords maxWidthPx
              words).length * maxWords := by
            simp [smul_eq_mul]
    exact ceilDiv_le_of_le hm hsum
  · -- exact count when the width cap never triggers
    intro hwide
    rcases List.exists_cons_of_ne_nil hne with ⟨w, rest, rfl⟩
    have hstep0 : groupStep lineWidthPx maxWords maxWidthPx ([], []) w
        = ([], [w]) := by
      unfold groupStep
      rw [if_neg (by simp; omega)]
      rw [if_neg (by simp)]
      simp
    have hfoldeq : (w :: rest).foldl
        (groupStep lineWidthPx maxWords maxWidthPx) ([], []) =
        rest.foldl (groupStep lineWidthPx maxWords maxWidthPx) ([], [w]) := by
      rw [List.foldl_cons, hstep0]
    obtain ⟨heq, h1, h2⟩ := group_fold_count lineWidthPx maxWords maxWidthPx
      hm hwide rest [] [w] (by simp) (by simpa using hm)
    have hne2 : (rest.foldl (groupStep lineWidthPx maxWords maxWidthPx)
        ([], [w])).2 ≠ [] := by
      intro hemp
      rw [hemp] at h1
      simp at h1
    rw [hG, hfoldeq, if_neg hne2]
    simp only [List.length_append, List.length_singleton, List.length_cons]
    simp only [List.length_nil, List.length_singleton, Nat.zero_mul,
      Nat.zero_add] at heq
    refine (ceilDiv_eq_succ hm ?_ ?_).symm
    · omega
    · omega

/-- Witness for C4: three words, at most two per line, under a metrics
oracle that never exceeds the width budget. -/
theorem claim_C4_witness :
    (∀ l ∈ groupWordsIntoLines (fun c => 10 * c.length) 2 100
        ["HELLO", "BIG", "WORLD"], l.length ≤ 2) ∧
    (groupWordsIntoLines (fun c => 10 * c.length) 2 100
        ["HELLO", "BIG", "WORLD"]).flatten = ["HELLO", "BIG", "WORLD"] ∧
    ceilDiv ["HELLO", "BIG", "WORLD"].length 2 ≤
        (groupWordsIntoLines (fun c => 10 * c.length) 2 100
          ["HELLO", "BIG", "WORLD"]).length ∧
    ((∀ c : List String, 10 * c.length ≤ 100) →
      (groupWordsIntoLines (fun c => 10 * c.length) 2 100
          ["HELLO", "BIG", "WORLD"]).length =
        ceilDiv ["HELLO", "BIG", "WORLD"].length 2) :=
  claim_C4 (fun c => 10 * c.length) 2 100 ["HELLO", "BIG", "WORLD"]
    (by simp) (by norm_num)

theorem ratToU8_natCast {n : Nat} (h : n ≤ 255) : ratToU8 (n : ℚ) = n := by
  unfold ratToU8 clampQ
  have h1 : min (n : ℚ) 255 = (n : ℚ) := by
    apply min_eq_left
    exact_mod_cast h
  have h2 : max (0 : ℚ) (n : ℚ) = (n : ℚ) := by
    apply max_eq_right
    exact_mod_cast Nat.zero_le n
  rw [h1, h2, Int.floor_natCast, Int.toNat_natCast]

theorem ratToU8_zero : ratToU8 0 = 0 := by
  have := @ratToU8_natCast 0 (by omega)
  simpa using this

/-- C6: `apply_advanced_effects` with every effect disabled returns its
input frame bit-identically. -/
theorem claim_C6 (trig : ℚ → ℚ × ℚ) (loadImage : String → Option Raster)
    (frameArr : RasterA) (textMaskArr : Gray) (p : FxParams)
    (h1 : p.innerShadowEnabled = false) (h2 : p.innerGlowEnabled = false)
    (h3 : p.gradientOverlayEnabled = false)
    (h4 : p.bevelEmbossEnabled = false) (h5 : p.textureEnabled = false)
    (h6 : p.chromeEnabled = false) :
    applyAdvancedEffects trig loadImage frameArr textMaskArr p = frameArr := by
  unfold applyAdvancedEffects
  simp only [h1, h2, h3, h4, h5, h6, Bool.false_eq_true, if_false]

/-- Witness for C6: a 2×2 frame with all effect flags at their disabled
defaults passes through unchanged. -/
theorem claim_C6_witness :
    applyAdvancedEffects (fun _ => (1, 0)) (fun _ => none)
      ⟨2, 2, fun x y => (x, y, 7, 9)⟩ ⟨2, 2, fun _ _ => 0⟩ {} =
      ⟨2, 2, fun x y => (x, y, 7, 9)⟩ :=
  claim_C6 (fun _ => (1, 0)) (fun _ => none) ⟨2, 2, fun x y => (x, y, 7, 9)⟩
    ⟨2, 2, fun _ _ => 0⟩ {} rfl rfl rfl rfl rfl rfl

theorem gradientSegments_pair {c : Rgb} {t : ℚ}
    (hr : c.1 ≤ 255) (hg : c.2.1 ≤ 255) (hb : c.2.2 ≤ 255)
    (ht0 : 0 ≤ t) (ht1 : t ≤ 1) :
    gradientSegments [c, c] t = c := by
  unfold gradientSegments
  simp only [List.length_cons, List.length_nil, Nat.zero_add]
  norm_num
  rw [show List.range 1 = [0] from rfl, List.foldl_cons, List.foldl_nil]
  norm_num
  split_ifs with hcond
  · have e : ∀ ch : Nat,
        (ch : ℚ) * (1 - clampQ t 0 1) + (ch : ℚ) * clampQ t 0 1 = (ch : ℚ) := by
      intro ch
      ring
    rw [e, e, e, ratToU8_natCast hr, ratToU8_natCast hg, ratToU8_natCast hb]
  · exact absurd ⟨ht0, ht1⟩ hcond

theorem clampQ_mem {q lo hi : ℚ} (h : lo ≤ hi) :
    lo ≤ clampQ q lo hi ∧ clampQ q lo hi ≤ hi := by
  unfold clampQ
  constructor
  · exact le_max_left _ _
  · exact max_le h (min_le_right _ _)

theorem createLinearGradient_pair {w h : Nat} {c : Rgb} {cosA sinA : ℚ}
    (hr : c.1 ≤ 255) (hg : c.2.1 ≤ 255) (hb : c.2.2 ≤ 255) (x y : Nat) :
    (createLinearGradient w h [c, c] cosA sinA).pix x y =
      (c.1, c.2.1, c.2.2, 255) := by
  unfold createLinearGradient
  simp only [List.length_cons, List.length_nil]
  norm_num
  have hmem := @clampQ_mem
    (((((x : ℚ) - (w : ℚ) / 2) * cosA + ((y : ℚ) - (h : ℚ) / 2) * sinA) /
      max (|cosA| * (w : ℚ) / 2 + |sinA| * (h : ℚ) / 2) 1 + 1) / 2)
    0 1 (by norm_num)
  rw [gradientSegments_pair hr hg hb hmem.1 hmem.2]
  exact ⟨rfl, rfl, rfl⟩

theorem overPix_src_alpha_zero {d s : Rgba} (hs : aOfA s = 0)
    (hr : rOfA d ≤ 255) (hg : gOfA d ≤ 255) (hb : bOfA d ≤ 255)
    (hA : aOfA d ≤ 255) (hne : aOfA d ≠ 0) : overPix d s = d := by
  unfold overPix
  rw [hs]
  have hda : ((aOfA d : ℚ) / 255) ≠ 0 := by
    have : (aOfA d : ℚ) ≠ 0 := Nat.cast_ne_zero.mpr hne
    positivity
  have hcond : ((0 : Nat) : ℚ) / 255 + (aOfA d : ℚ) / 255 *
      (1 - ((0 : Nat) : ℚ) / 255) ≠ 0 := by
    simpa using hda
  rw [if_neg hcond]
  have hchan : ∀ chs chd : Nat,
      ((chs : ℚ) * (((0 : Nat) : ℚ) / 255) + (chd : ℚ) * ((aOfA d : ℚ) / 255) *
        (1 - ((0 : Nat) : ℚ) / 255)) /
        (((0 : Nat) : ℚ) / 255 + (aOfA d : ℚ) / 255 *
          (1 - ((0 : Nat) : ℚ) / 255)) = (chd : ℚ) := by
    intro chs chd
    rw [Nat.cast_zero]
    field_simp
  have halpha : (((0 : Nat) : ℚ) / 255 + (aOfA d : ℚ) / 255 *
      (1 - ((0 : Nat) : ℚ) / 255)) * 255 = (aOfA d : ℚ) := by
    rw [Nat.cast_zero]
    field_simp
  rw [hchan (rOfA s) (rOfA d), hchan (gOfA s) (gOfA d),
    hchan (bOfA s) (bOfA d), halpha, ratToU8_natCast hr, ratToU8_natCast hg,
    ratToU8_natCast hb, ratToU8_natCast hA]
  rfl

theorem gradientOverlayLayer_pix (w h : Nat) (textMask : Gray)
    (colors : List Rgb) (cosA sinA opacity : ℚ) (x y : Nat) :
    (gradientOverlayLayer w h textMask colors cosA sinA opacity).pix x y =
      (rOfA ((createLinearGradient w h colors cosA sinA).pix x y),
       gOfA ((createLinearGradient w h colors cosA sinA).pix x y),
       bOfA ((createLinearGradient w h colors cosA sinA).pix x y),
       ratToU8 ((textMask.pix x y : ℚ) / 255 * 255 * clampQ opacity 0 1)) :=
  rfl

theorem gradientOverlayLayer_alpha_zero {w h : Nat} {textMask : Gray}
    {colors : List Rgb} {cosA sinA opacity : ℚ} {x y : Nat}
    (hm : textMask.pix x y = 0) :
    aOfA ((gradientOverlayLayer w h textMask colors cosA sinA
      opacity).pix x y) = 0 := by
  rw [gradientOverlayLayer_pix]
  show ratToU8 ((textMask.pix x y : ℚ) / 255 * 255 * clampQ opacity 0 1) = 0
  rw [hm]
  have e : (((0 : Nat) : ℚ) / 255 * 255 * clampQ opacity 0 1) = 0 := by
    push_cast
    ring
  rw [e, ratToU8_zero]

/-- C7: the gradient-overlay layer synthesized from exactly two identical
colour stops is that colour at every pixel (in particular wherever the mask
is 255), carries alpha 0 wherever the mask is 0, and consequently
contributes nothing there when composited onto an 8-bit frame of non-zero
alpha. -/
theorem claim_C7 (w h : Nat) (textMask : Gray) (c : Rgb)
    (cosA sinA opacity : ℚ)
    (hr : c.1 ≤ 255) (hg : c.2.1 ≤ 255) (hb : c.2.2 ≤ 255) :
    (∀ x y, rgbOfA ((gradientOverlayLayer w h textMask [c, c] cosA sinA
        opacity).pix x y) = c) ∧
    (∀ x y, textMask.pix x y = 0 →
      aOfA ((gradientOverlayLayer w h textMask [c, c] cosA sinA
        opacity).pix x y) = 0) ∧
    (∀ img : RasterA, ∀ x y, textMask.pix x y = 0 →
      rOfA (img.pix x y) ≤ 255 → gOfA (img.pix x y) ≤ 255 →
      bOfA (img.pix x y) ≤ 255 → aOfA (img.pix x y) ≤ 255 →
      aOfA (img.pix x y) ≠ 0 →
      (fxGradientOverlay img textMask [c, c] cosA sinA opacity).pix x y =
        img.pix x y) := by
  refine ⟨?_, ?_, ?_⟩
  · intro x y
    rw [gradientOverlayLayer_pix, createLinearGradient_pair hr hg hb]
    rfl
  · intro x y hm
    exact gradientOverlayLayer_alpha_zero hm
  · intro img x y hm hr2 hg2 hb2 ha2 hne2
    show overPix (img.pix x y)
      ((gradientOverlayLayer img.w img.h textMask [c, c] cosA sinA
        opacity).pix x y) = img.pix x y
    exact overPix_src_alpha_zero (gradientOverlayLayer_alpha_zero hm)
      hr2 hg2 hb2 ha2 hne2

/-- Witness for C7: two identical gold stops over a 1×1 all-zero mask. -/
theorem claim_C7_witness :
    (∀ x y, rgbOfA ((gradientOverlayLayer 1 1 ⟨1, 1, fun _ _ => 0⟩
        [(255, 215, 0), (255, 215, 0)] 1 0 (4/5)).pix x y) = (255, 215, 0)) ∧
    (∀ x y, (Img.pix ⟨1, 1, fun _ _ => 0⟩ x y : Nat) = 0 →
      aOfA ((gradientOverlayLayer 1 1 ⟨1, 1, fun _ _ => 0⟩
        [(255, 215, 0), (255, 215, 0)] 1 0 (4/5)).pix x y) = 0) ∧
    (∀ img : RasterA, ∀ x y, (Img.pix ⟨1, 1, fun _ _ => 0⟩ x y : Nat) = 0 →
      rOfA (img.pix x y) ≤ 255 → gOfA (img.pix x y) ≤ 255 →
      bOfA (img.pix x y) ≤ 255 → aOfA (img.pix x y) ≤ 255 →
      aOfA (img.pix x y) ≠ 0 →
      (fxGradientOverlay img ⟨1, 1, fun _ _ => 0⟩
        [(255, 215, 0), (255, 215, 0)] 1 0 (4/5)).pix x y = img.pix x y) :=
  claim_C7 1 1 ⟨1, 1, fun _ _ => 0⟩ (255, 215, 0) 1 0 (4/5)
    (by norm_num) (by norm_num) (by norm_num)

/-- C8: when no in-memory texture is supplied and the path is missing or
fails to load, `_fx_texture` returns its input image unchanged. -/
theorem claim_C8 (loadImage : String → Option Raster) (img : RasterA)
    (textMask : Gray) (path : Option String) (scale opacity : ℚ)
    (blendMode : String)
    (hfail : ∀ p, path = some p → loadImage p = none) :
    fxTexture loadImage img textMask path scale opacity blendMode none =
      img := by
  have h : resolveTexture loadImage path none = none := by
    cases hp : path with
    | none => rfl
    | some p =>
      show loadImage p = none
      exact hfail p hp
  unfold fxTexture
  rw [h]

/-- Witness for C8: a missing texture file (the loader fails on every
path). -/
theorem claim_C8_witness :
    fxTexture (fun _ => none) ⟨2, 2, fun x y => (x, y, 3, 200)⟩
      ⟨2, 2, fun _ _ => 255⟩ (some "missing_texture.png") 1 (1/2)
      "overlay" none = ⟨2, 2, fun x y => (x, y, 3, 200)⟩ :=
  claim_C8 (fun _ => none) ⟨2, 2, fun x y => (x, y, 3, 200)⟩
    ⟨2, 2, fun _ _ => 255⟩ (some "missing_texture.png") 1 (1/2) "overlay"
    (fun _ _ => rfl)

/-- C9: the procedural texture generator is a deterministic function of its
arguments — two independent invocations with equal seeds (and equal size,
colours, and roughness) produce byte-identical rasters.  In this embedding
the only stochastic ingredient, the numpy `RandomState`, is threaded
explicitly from the seed, so the generator reads no other state. -/
theorem claim_C9 (width height : Nat) (baseColor accentColor : Rgb)
    (roughness : Nat) (seed1 seed2 : Nat) (hseed : seed1 = seed2) :
    generateProceduralTexture width height baseColor accentColor roughness
      seed1 =
    generateProceduralTexture width height baseColor accentColor roughness
      seed2 := by
  rw [hseed]

/-- Witness for C9 at the spec scenario: `roughness = 1`, fixed seed 42. -/
theorem claim_C9_witness :
    generateProceduralTexture 8 8 (40, 10, 10) (120, 30, 20) 1 42 =
      generateProceduralTexture 8 8 (40, 10, 10) (120, 30, 20) 1 42 :=
  claim_C9 8 8 (40, 10, 10) (120, 30, 20) 1 42 42 rfl

/-- C10: with a populated frame cache, every negative `highlight_index`
(including the documented `-1`) is clamped to 0, so the lookup returns the
variant with word 0 highlighted — never an out-of-range access, and no
"no word highlighted" variant exists. -/
theorem claim_C10 (npFrames : List RasterA) (highlightIndex : Int)
    (hne : 1 ≤ npFrames.length) (hneg : highlightIndex < 0) :
    renderCachedFrame npFrames highlightIndex = npFrames[0]? ∧
    (renderCachedFrame npFrames highlightIndex).isSome = true ∧
    (max 0 highlightIndex).toNat = 0 := by
  have hmax : max 0 highlightIndex = 0 := max_eq_left (le_of_lt hneg)
  unfold renderCachedFrame
  rw [hmax]
  refine ⟨rfl, ?_, rfl⟩
  rw [List.getElem?_eq_getElem (by omega)]
  rfl

/-- Witness for C10: a one-frame cache queried at `highlight_index = -1`. -/
theorem claim_C10_witness :
    renderCachedFrame [⟨1, 1, fun _ _ => (0, 0, 0, 255)⟩] (-1) =
        [(⟨1, 1, fun _ _ => (0, 0, 0, 255)⟩ : RasterA)][0]? ∧
    (renderCachedFrame [⟨1, 1, fun _ _ => (0, 0, 0, 255)⟩] (-1)).isSome
        = true ∧
    (max 0 (-1 : Int)).toNat = 0 :=
  claim_C10 [⟨1, 1, fun _ _ => (0, 0, 0, 255)⟩] (-1) (by norm_num)
    (by norm_num)

/-- Counterexample to C3 as stated: constructing a composite from an empty
clip list with an explicit output size does not succeed — `__init__`
reaches `duration = max(ends)` with `ends = []` (since `None not in []` is
true) and raises, so no frame is ever produced. -/
theorem claim_C3_counterexample :
    compositeInit [] (some (4, 3)) none false false =
      Except.error InitError.emptyMax := rfl

/-- C3 (amended): constructing a composite from an empty list of layers
(zero clips, with an explicit output size) always raises — the duration
computation takes `max` of the empty `ends` list — for every background
configuration; the documented return-the-background-fill behaviour is
unreachable. -/
theorem claim_C3 (size : Nat × Nat) (bgColor : Option Rgb) (isMask : Bool) :
    compositeInit [] (some size) bgColor false isMask =
      Except.error InitError.emptyMax := rfl

theorem compositeInit_ok_fields {clips0 : List VClip}
    {size0 : Option (Nat × Nat)} {bgColor : Option Rgb}
    {useBgclip isMask : Bool} {comp : Composite}
    (h : compositeInit clips0 size0 bgColor useBgclip isMask =
      Except.ok comp) :
    comp.isMask = isMask ∧
    comp.blitPil = (if isMask then []
      else comp.clips.map (pilBlitOf comp.size.1 comp.size.2)) ∧
    comp.blitNp = (if isMask then []
      else comp.clips.map (npBlitOf comp.size.1 comp.size.2)) ∧
    comp.cachedFrame = (if isMask then none
      else computeCachedFrame comp.size.1 comp.size.2 comp.duration
        comp.clips comp.bg) ∧
    comp.anyMasks = comp.clips.any (fun c => c.mask.isSome) := by
  unfold compositeInit at h
  repeat'
    first
    | split at h
    | dsimp only at h
  all_goals first
    | (injection h with h2
       subst h2
       simp_all)
    | injection h

theorem compositeInit_clips_eq {clips0 : List VClip}
    {size0 : Option (Nat × Nat)} {bgColor : Option Rgb} {isMask : Bool}
    {comp : Composite}
    (h : compositeInit clips0 size0 bgColor false isMask =
      Except.ok comp) :
    comp.clips = sortClips clips0 := by
  unfold compositeInit at h
  repeat'
    first
    | split at h
    | dsimp only at h
  all_goals first
    | (injection h with h2
       subst h2
       simp_all)
    | injection h

theorem filter_orderedInsert_key (k : Int) (c : VClip) :
    ∀ l : List VClip,
      (List.orderedInsert layerLE c l).filter
          (fun b => decide (b.layer_index = k)) =
        if c.layer_index = k then
          c :: l.filter (fun b => decide (b.layer_index = k))
        else l.filter (fun b => decide (b.layer_index = k)) := by
  intro l
  induction l with
  | nil =>
    by_cases h : c.layer_index = k
    · simp [List.orderedInsert, List.filter, h]
    · simp [List.orderedInsert, List.filter, h]
  | cons b bs ih =>
    by_cases hle : layerLE c b
    · rw [List.orderedInsert, if_pos hle]
      by_cases hck : c.layer_index = k
      · simp [List.filter_cons, hck]
      · simp [List.filter_cons, hck]
    · rw [List.orderedInsert, if_neg hle]
      by_cases hck : c.layer_index = k
      · have hbk : ¬(b.layer_index = k) := by
          intro hbk
          apply hle
          unfold layerLE
          omega
        simp [List.filter_cons, hbk, hck, ih]
      · simp [List.filter_cons, ih, hck]

theorem filter_sortClips (k : Int) (clips : List VClip) :
    (sortClips clips).filter (fun b => decide (b.layer_index = k)) =
      clips.filter (fun b => decide (b.layer_index = k)) := by
  unfold sortClips
  induction clips with
  | nil => rfl
  | cons c cs ih =>
    rw [List.insertionSort, filter_orderedInsert_key k c]
    by_cases h : c.layer_index = k
    · rw [if_pos h, ih]
      simp [List.filter_cons, h]
    · rw [if_neg h, ih]
      simp [List.filter_cons, h]

/-- C5: the painting order is the stable sort of the layers by z-order key —
a permutation of the declared layers, ascending in the key, with equal keys
kept in declaration order (the later-declared layer sits later, i.e. is
painted last and appears on top); a composite built by `__init__` paints
its layers exactly in this order. -/
theorem claim_C5 (clips : List VClip) :
    (sortClips clips).Perm clips ∧
    (sortClips clips).Sorted layerLE ∧
    (∀ k : Int,
      (sortClips clips).filter (fun c => decide (c.layer_index = k)) =
        clips.filter (fun c => decide (c.layer_index = k))) ∧
    (∀ (size : Nat × Nat) (bgColor : Option Rgb) (isMask : Bool)
        (comp : Composite),
      compositeInit clips (some size) bgColor false isMask =
          Except.ok comp →
      comp.clips = sortClips clips) :=
  ⟨List.perm_insertionSort layerLE clips,
    List.sorted_insertionSort layerLE clips,
    fun k => filter_sortClips k clips,
    fun _ _ _ _ h => compositeInit_clips_eq h⟩

/-- Witness for C5: two layers sharing z-order key 5 and one with key 3. -/
theorem claim_C5_witness :
    (sortClips [⟨(1, 1), none, none, fun _ => ⟨1, 1, fun _ _ => (1, 1, 1)⟩,
        none, fun _ => (0, 0), 0, none, 5⟩,
      ⟨(2, 2), none, none, fun _ => ⟨2, 2, fun _ _ => (2, 2, 2)⟩,
        none, fun _ => (0, 0), 0, none, 5⟩,
      ⟨(3, 3), none, none, fun _ => ⟨3, 3, fun _ _ => (3, 3, 3)⟩,
        none, fun _ => (0, 0), 0, none, 3⟩]).Perm
      [⟨(1, 1), none, none, fun _ => ⟨1, 1, fun _ _ => (1, 1, 1)⟩,
        none, fun _ => (0, 0), 0, none, 5⟩,
      ⟨(2, 2), none, none, fun _ => ⟨2, 2, fun _ _ => (2, 2, 2)⟩,
        none, fun _ => (0, 0), 0, none, 5⟩,
      ⟨(3, 3), none, none, fun _ => ⟨3, 3, fun _ _ => (3, 3, 3)⟩,
        none, fun _ => (0, 0), 0, none, 3⟩] ∧
    (sortClips [⟨(1, 1), none, none, fun _ => ⟨1, 1, fun _ _ => (1, 1, 1)⟩,
        none, fun _ => (0, 0), 0, none, 5⟩,
      ⟨(2, 2), none, none, fun _ => ⟨2, 2, fun _ _ => (2, 2, 2)⟩,
        none, fun _ => (0, 0), 0, none, 5⟩,
      ⟨(3, 3), none, none, fun _ => ⟨3, 3, fun _ _ => (3, 3, 3)⟩,
        none, fun _ => (0, 0), 0, none, 3⟩]).Sorted layerLE ∧
    (∀ k : Int,
      (sortClips [⟨(1, 1), none, none,
          fun _ => ⟨1, 1, fun _ _ => (1, 1, 1)⟩,
          none, fun _ => (0, 0), 0, none, 5⟩,
        ⟨(2, 2), none, none, fun _ => ⟨2, 2, fun _ _ => (2, 2, 2)⟩,
          none, fun _ => (0, 0), 0, none, 5⟩,
        ⟨(3, 3), none, none, fun _ => ⟨3, 3, fun _ _ => (3, 3, 3)⟩,
          none, fun _ => (0, 0), 0, none, 3⟩]).filter
          (fun c => decide (c.layer_index = k)) =
        ([⟨(1, 1), none, none, fun _ => ⟨1, 1, fun _ _ => (1, 1, 1)⟩,
          none, fun _ => (0, 0), 0, none, 5⟩,
        ⟨(2, 2), none, none, fun _ => ⟨2, 2, fun _ _ => (2, 2, 2)⟩,
          none, fun _ => (0, 0), 0, none, 5⟩,
        ⟨(3, 3), none, none, fun _ => ⟨3, 3, fun _ _ => (3, 3, 3)⟩,
          none, fun _ => (0, 0), 0, none, 3⟩] : List VClip).filter
          (fun c => decide (c.layer_index = k))) ∧
    (∀ (size : Nat × Nat) (bgColor : Option Rgb) (isMask : Bool)
        (comp : Composite),
      compositeInit [⟨(1, 1), none, none,
          fun _ => ⟨1, 1, fun _ _ => (1, 1, 1)⟩,
          none, fun _ => (0, 0), 0, none, 5⟩,
        ⟨(2, 2), none, none, fun _ => ⟨2, 2, fun _ _ => (2, 2, 2)⟩,
          none, fun _ => (0, 0), 0, none, 5⟩,
        ⟨(3, 3), none, none, fun _ => ⟨3, 3, fun _ _ => (3, 3, 3)⟩,
          none, fun _ => (0, 0), 0, none, 3⟩] (some size) bgColor false
          isMask = Except.ok comp →
      comp.clips = sortClips [⟨(1, 1), none, none,
          fun _ => ⟨1, 1, fun _ _ => (1, 1, 1)⟩,
          none, fun _ => (0, 0), 0, none, 5⟩,
        ⟨(2, 2), none, none, fun _ => ⟨2, 2, fun _ _ => (2, 2, 2)⟩,
          none, fun _ => (0, 0), 0, none, 5⟩,
        ⟨(3, 3), none, none, fun _ => ⟨3, 3, fun _ _ => (3, 3, 3)⟩,
          none, fun _ => (0, 0), 0, none, 3⟩]) :=
  claim_C5 [⟨(1, 1), none, none, fun _ => ⟨1, 1, fun _ _ => (1, 1, 1)⟩,
      none, fun _ => (0, 0), 0, none, 5⟩,
    ⟨(2, 2), none, none, fun _ => ⟨2, 2, fun _ _ => (2, 2, 2)⟩,
      none, fun _ => (0, 0), 0, none, 5⟩,
    ⟨(3, 3), none, none, fun _ => ⟨3, 3, fun _ _ => (3, 3, 3)⟩,
      none, fun _ => (0, 0), 0, none, 3⟩]

theorem isPlaying_of_fullWindow {duration : Option ℚ} {c : VClip} {t : ℚ}
    (hw : FullWindow duration c) (ht : 0 ≤ t)
    (htd : ∀ d : ℚ, duration = some d → t < d) :
    isPlayingB c t = true := by
  obtain ⟨hs, hstop⟩ := hw
  unfold isPlayingB
  rw [hs]
  rcases hstop with h0 | ⟨d, e, hdur, hstop, hde⟩
  · rw [h0]
    simp [ht]
  · rw [hstop]
    simp only [Bool.and_eq_true, decide_eq_true_eq]
    exact ⟨ht, lt_of_lt_of_le (htd d hdur) hde⟩

theorem makeNumpyCanvas_static {bg : VClip} {fullW fullH : Nat} (t : ℚ)
    (hbg : ∀ u : ℚ, bg.frameAt u = bg.frameAt 0) :
    makeNumpyCanvas bg fullW fullH t = makeNumpyCanvas bg fullW fullH 0 := by
  have e : bg.frameAt (t - bg.start) = bg.frameAt (0 - bg.start) :=
    (hbg _).trans (hbg _).symm
  simp only [makeNumpyCanvas]
  rw [e]

theorem pilBase_static {bg : VClip} {fullW fullH : Nat} (t : ℚ)
    (hbg : ∀ u : ℚ, bg.frameAt u = bg.frameAt 0) :
    pilBase bg fullW fullH t = pilBase bg fullW fullH 0 := by
  unfold pilBase
  cases hcp : bg.cachedPil with
  | none => exact makeNumpyCanvas_static t hbg
  | some bp =>
    dsimp only
    by_cases hsz : bp.w = fullW ∧ bp.h = fullH
    · rw [if_pos hsz, if_pos hsz]
    · rw [if_neg hsz, if_neg hsz]
      exact makeNumpyCanvas_static t hbg

theorem makeNumpyCanvas_eq_pilBase {bg : VClip} {fullW fullH : Nat} (t : ℚ)
    (hbg : StaticBg bg) :
    makeNumpyCanvas bg fullW fullH t = pilBase bg fullW fullH 0 := by
  unfold pilBase
  cases hcp : bg.cachedPil with
  | none => exact makeNumpyCanvas_static t hbg.1
  | some bp =>
    dsimp only
    by_cases hsz : bp.w = fullW ∧ bp.h = fullH
    · rw [if_pos hsz]
      have e : bg.frameAt (t - bg.start) = bp :=
        (hbg.1 _).trans (hbg.2 bp hcp)
      simp only [makeNumpyCanvas]
      rw [e]
      rw [if_pos ⟨hsz.2.ge, hsz.1.ge⟩]
      exact Img.eq_of hsz.1.symm hsz.2.symm (fun x y => rfl)
    · rw [if_neg hsz]
      exact makeNumpyCanvas_static t hbg.1

theorem blitRect_bounds {fullW fullH cw ch : Nat} {x y : Int}
    {sx1 sy1 sx2 sy2 dx1 dy1 : Int}
    (h : blitRect fullW fullH cw ch x y =
      some (sx1, sy1, sx2, sy2, dx1, dy1)) :
    0 ≤ sx1 ∧ 0 ≤ sy1 ∧ 0 ≤ dx1 ∧ 0 ≤ dy1 ∧ sx1 < sx2 ∧ sy1 < sy2 := by
  unfold blitRect at h
  split at h
  · exact absurd h (by simp)
  · dsimp only at h
    split at h
    · exact absurd h (by simp)
    · rename_i hdeg
      injection h with h2
      simp only [Prod.mk.injEq] at h2
      obtain ⟨e1, e2, e3, e4, e5, e6⟩ := h2
      subst e1
      subst e2
      subst e3
      subst e4
      subst e5
      subst e6
      refine ⟨?_, ?_, ?_, ?_, ?_, ?_⟩ <;> omega

theorem pasteOpaque_eq_sliceAssign (cv src : Raster) (dx dy : Nat) :
    pasteOpaque cv src dx dy =
      sliceAssign cv src dy (dy + src.h) dx (dx + src.w) := rfl

theorem precompCore_none_of_pilBlit {fullW fullH : Nat} {c : VClip}
    (h : pilBlitOf fullW fullH c = none) :
    precompCore fullW fullH c = none := by
  unfold pilBlitOf at h
  cases hp : precompCore fullW fullH c with
  | none => rfl
  | some p =>
    rw [hp] at h
    obtain ⟨a1, a2, a3, a4, a5, a6, a7, a8⟩ := p
    exact absurd h (by simp)

theorem npBlitOf_none {fullW fullH : Nat} {c : VClip}
    (h : precompCore fullW fullH c = none) :
    npBlitOf fullW fullH c = none := by
  unfold npBlitOf
  rw [h]

theorem precompCore_none_rect {fullW fullH : Nat} {c : VClip} {r : Raster}
    (hpil : c.cachedPil = some r) (hmask : StaticMask c)
    (hpos01 : c.pos 0 = c.pos 1)
    (hnone : precompCore fullW fullH c = none) :
    blitRect fullW fullH r.w r.h (c.pos c.start).1 (c.pos c.start).2 =
      none := by
  obtain ⟨px, py, hpxy⟩ : ∃ px py : Int, c.pos c.start = (px, py) :=
    ⟨(c.pos c.start).1, (c.pos c.start).2, rfl⟩
  rw [hpxy]
  dsimp only
  unfold precompCore at hnone
  rw [hpil] at hnone
  dsimp only at hnone
  have hg : ¬(c.mask.isSome ∧ (match c.mask with
      | some m => m.cachedPil
      | none => none : Option Gray).isNone) := by
    intro hg
    cases hm : c.mask with
    | none =>
      rw [hm] at hg
      simp at hg
    | some m =>
      obtain ⟨g, hgp, _⟩ := hmask m hm
      rw [hm] at hg
      dsimp only at hg
      rw [hgp] at hg
      simp at hg
  rw [if_neg hg, if_neg (not_not_intro hpos01)] at hnone
  unfold newBlitOn at hnone
  rw [hpxy] at hnone
  dsimp only at hnone
  cases hrect : blitRect fullW fullH r.w r.h px py with
  | none => rfl
  | some rect =>
    obtain ⟨a1, a2, a3, a4, a5, a6⟩ := rect
    rw [hrect] at hnone
    exact absurd hnone (by simp)

theorem pilFallback_noop {fullW fullH : Nat} {c : VClip} {t : ℚ}
    (cv : Raster) {r : Raster}
    (hfr : ∀ u : ℚ, c.frameAt u = r) (hcp : ConstPos c)
    (hrect : blitRect fullW fullH r.w r.h (c.pos c.start).1
      (c.pos c.start).2 = none) :
    pilFallback fullW fullH cv c t = cv := by
  have hpt : c.pos t = c.pos c.start := hcp t c.start
  obtain ⟨px, py, hpxy⟩ : ∃ px py : Int, c.pos c.start = (px, py) :=
    ⟨(c.pos c.start).1, (c.pos c.start).2, rfl⟩
  rw [hpxy] at hrect
  dsimp only at hrect
  unfold pilFallback newBlitOn
  rw [hfr t, hpt, hpxy]
  dsimp only
  rw [hrect]

theorem npFallback_noop {fullW fullH : Nat} {c : VClip} {t : ℚ}
    (cv : Raster) {r : Raster}
    (hfr : ∀ u : ℚ, c.frameAt u = r) (hcp : ConstPos c)
    (hrect : blitRect fullW fullH r.w r.h (c.pos c.start).1
      (c.pos c.start).2 = none) :
    npFallback fullW fullH cv c t = cv := by
  have hpt : c.pos t = c.pos c.start := hcp t c.start
  obtain ⟨px, py, hpxy⟩ : ∃ px py : Int, c.pos c.start = (px, py) :=
    ⟨(c.pos c.start).1, (c.pos c.start).2, rfl⟩
  rw [hpxy] at hrect
  dsimp only at hrect
  unfold npFallback newBlitOn
  rw [hfr t, hpt, hpxy]
  dsimp only
  rw [hrect]

theorem pilBlit_np_of_some {fullW fullH : Nat} {c : VClip} {r : Raster}
    (hpil : c.cachedPil = some r) (hu8 : c.cachedUint8 = some r)
    (hnm : c.mask = none)
    {b : BlitPil} (hb : pilBlitOf fullW fullH c = some b) :
    ∃ sx1 sy1 sx2 sy2 dx1 dy1 : Int,
      blitRect fullW fullH r.w r.h (c.pos c.start).1 (c.pos c.start).2 =
        some (sx1, sy1, sx2, sy2, dx1, dy1) ∧
      b = { sp := cropR r sx1.toNat sy1.toNat sx2.toNat sy2.toNat,
            mp := none, dx := dx1.toNat, dy := dy1.toNat,
            hasMask := false } ∧
      npBlitOf fullW fullH c =
        some { src := cropR r sx1.toNat sy1.toNat sx2.toNat sy2.toNat,
               dy1 := dy1.toNat, dy2 := dy1.toNat + (sy2 - sy1).toNat,
               dx1 := dx1.toNat, dx2 := dx1.toNat + (sx2 - sx1).toNat } := by
  obtain ⟨px, py, hpxy⟩ : ∃ px py : Int, c.pos c.start = (px, py) :=
    ⟨(c.pos c.start).1, (c.pos c.start).2, rfl⟩
  cases hp : precompCore fullW fullH c with
  | none =>
    unfold pilBlitOf at hb
    rw [hp] at hb
    exact absurd hb (by simp)
  | some p =>
    obtain ⟨sp, mp, sx1, sy1, sx2, sy2, dx1, dy1⟩ := p
    have hinv : sp = r ∧ mp = none ∧
        blitRect fullW fullH r.w r.h px py =
          some (sx1, sy1, sx2, sy2, dx1, dy1) := by
      unfold precompCore at hp
      rw [hpil] at hp
      dsimp only at hp
      rw [hnm] at hp
      rw [if_neg (by simp)] at hp
      by_cases hps : c.pos 0 = c.pos 1
      · rw [if_neg (not_not_intro hps)] at hp
        unfold newBlitOn at hp
        rw [hpxy] at hp
        dsimp only at hp
        cases hrect : blitRect fullW fullH r.w r.h px py with
        | none =>
          rw [hrect] at hp
          exact absurd hp (by simp)
        | some rect =>
          obtain ⟨a1, a2, a3, a4, a5, a6⟩ := rect
          rw [hrect] at hp
          dsimp only at hp
          injection hp with hp2
          simp only [Prod.mk.injEq] at hp2
          obtain ⟨e1, e2, e3, e4, e5, e6, e7, e8⟩ := hp2
          refine ⟨e1.symm, e2.symm, ?_⟩
          rw [e3, e4, e5, e6, e7, e8]
      · rw [if_pos hps] at hp
        exact absurd hp (by simp)
    obtain ⟨hsp, hmp, hrect⟩ := hinv
    subst hsp
    subst hmp
    refine ⟨sx1, sy1, sx2, sy2, dx1, dy1, ?_, ?_, ?_⟩
    · rw [hpxy]
      dsimp only
      exact hrect
    · unfold pilBlitOf at hb
      rw [hp] at hb
      dsimp only at hb
      rw [hnm] at hb
      injection hb with hb2
      rw [← hb2]
      rfl
    · unfold npBlitOf
      rw [hp]
      dsimp only
      rw [hu8]

theorem pil_fold_static {fullW fullH : Nat} {t : ℚ} (L : List VClip) :
    ∀ cv : Raster,
    (∀ c ∈ L, StaticContent c ∧ StaticMask c ∧ ConstPos c ∧
      isPlayingB c t = true) →
    (L.zip (L.map (pilBlitOf fullW fullH))).foldl (fun cv2 cb =>
        if isPlayingB cb.1 t then
          match cb.2 with
          | some b => pastePilBlit cv2 b
          | none => pilFallback fullW fullH cv2 cb.1 t
        else cv2) cv =
      (L.map (pilBlitOf fullW fullH)).foldl (fun cv2 ob =>
        match ob with
        | some b => pastePilBlit cv2 b
        | none => cv2) cv := by
  induction L with
  | nil =>
    intro cv _
    rfl
  | cons c L2 ih =>
    intro cv hall
    obtain ⟨⟨r, hpil, hu8, hfr⟩, hmask, hcp, hplay⟩ :=
      hall c (List.mem_cons_self c L2)
    simp only [List.map_cons, List.zip_cons_cons, List.foldl_cons]
    rw [hplay, if_pos rfl]
    cases hb : pilBlitOf fullW fullH c with
    | some b =>
      dsimp only
      exact ih (pastePilBlit cv b)
        (fun c2 hc2 => hall c2 (List.mem_cons_of_mem c hc2))
    | none =>
      dsimp only
      have hrect := precompCore_none_rect hpil hmask (hcp 0 1)
        (precompCore_none_of_pilBlit hb)
      rw [pilFallback_noop cv hfr hcp hrect]
      exact ih cv (fun c2 hc2 => hall c2 (List.mem_cons_of_mem c hc2))

theorem np_fold_static {fullW fullH : Nat} {t : ℚ} (L : List VClip) :
    ∀ cv : Raster,
    (∀ c ∈ L, StaticContent c ∧ ConstPos c ∧ c.mask = none ∧
      isPlayingB c t = true) →
    (L.zip (L.map (npBlitOf fullW fullH))).foldl (fun cv2 cb =>
        if isPlayingB cb.1 t then
          match cb.2 with
          | some b => sliceAssign cv2 b.src b.dy1 b.dy2 b.dx1 b.dx2
          | none => npFallback fullW fullH cv2 cb.1 t
        else cv2) cv =
      (L.map (pilBlitOf fullW fullH)).foldl (fun cv2 ob =>
        match ob with
        | some b => pastePilBlit cv2 b
        | none => cv2) cv := by
  induction L with
  | nil =>
    intro cv _
    rfl
  | cons c L2 ih =>
    intro cv hall
    obtain ⟨⟨r, hpil, hu8, hfr⟩, hcp, hnm, hplay⟩ :=
      hall c (List.mem_cons_self c L2)
    simp only [List.map_cons, List.zip_cons_cons, List.foldl_cons]
    rw [hplay, if_pos rfl]
    cases hb : pilBlitOf fullW fullH c with
    | none =>
      have hpc := precompCore_none_of_pilBlit hb
      have hmask : StaticMask c := by
        intro m hm
        rw [hnm] at hm
        exact Option.noConfusion hm
      have hrect := precompCore_none_rect hpil hmask (hcp 0 1) hpc
      rw [npBlitOf_none hpc]
      dsimp only
      rw [npFallback_noop cv hfr hcp hrect]
      exact ih cv (fun c2 hc2 => hall c2 (List.mem_cons_of_mem c hc2))
    | some b =>
      obtain ⟨sx1, sy1, sx2, sy2, dx1, dy1, hrect, hbform, hnb⟩ :=
        pilBlit_np_of_some hpil hu8 hnm hb
      rw [hnb]
      dsimp only
      obtain ⟨h1, h2, h3, h4, h5, h6⟩ := blitRect_bounds hrect
      have hstep : sliceAssign cv
          (cropR r sx1.toNat sy1.toNat sx2.toNat sy2.toNat)
          dy1.toNat (dy1.toNat + (sy2 - sy1).toNat)
          dx1.toNat (dx1.toNat + (sx2 - sx1).toNat) = pastePilBlit cv b := by
        rw [hbform]
        show sliceAssign cv _ _ _ _ _ = pasteOpaque cv _ _ _
        rw [pasteOpaque_eq_sliceAssign]
        have e1 : (sy2 - sy1).toNat = sy2.toNat - sy1.toNat := by omega
        have e2 : (sx2 - sx1).toNat = sx2.toNat - sx1.toNat := by omega
        rw [e1, e2]
        rfl
      rw [hstep]
      exact ih (pastePilBlit cv b)
        (fun c2 hc2 => hall c2 (List.mem_cons_of_mem c hc2))

/-- C1 (amended): for every colour composite built by `__init__` whose
layers all have static content (and static masks), constant position, and
a full-duration window, and whose background is static, the raster
`frame_function` returns (the cached pre-render when the cache engaged)
equals the freshly-computed non-cached flattening at every queried
timestamp inside the composite's span.  The quarantine half of the
original claim — that the cache is never used when a precondition fails —
is false: see the counterexample, where a layer's position varies at
t = 1/2 but agrees at the two sampled times t = 0 and t = 1.0, and the
cache still engages. -/
theorem claim_C1 {clips0 : List VClip} {size0 : Option (Nat × Nat)}
    {bgColor : Option Rgb} {useBgclip : Bool} {comp : Composite}
    (hinit : compositeInit clips0 size0 bgColor useBgclip false =
      Except.ok comp)
    (hstatic : ∀ c ∈ comp.clips, StaticContent c ∧ StaticMask c ∧
      ConstPos c)
    (hwindow : ∀ c ∈ comp.clips, FullWindow comp.duration c)
    (hbg : StaticBg comp.bg)
    {t : ℚ} (ht : 0 ≤ t)
    (htd : ∀ d : ℚ, comp.duration = some d → t < d) :
    frameFunction comp t = freshFrame comp t := by
  obtain ⟨hIsMask, hBlitPil, hBlitNp, hCached, hAny⟩ :=
    compositeInit_ok_fields hinit
  simp only [Bool.false_eq_true, if_false] at hBlitPil hBlitNp hCached
  unfold frameFunction
  cases hcf : comp.cachedFrame with
  | none => rfl
  | some f =>
    dsimp only
    rw [hcf] at hCached
    unfold computeCachedFrame at hCached
    split at hCached
    · injection hCached with hf
      subst hf
      have hall : ∀ c ∈ comp.clips, StaticContent c ∧ StaticMask c ∧
          ConstPos c ∧ isPlayingB c t = true := by
        intro c hc
        obtain ⟨hsc, hsm, hcp⟩ := hstatic c hc
        exact ⟨hsc, hsm, hcp,
          isPlaying_of_fullWindow (hwindow c hc) ht htd⟩
      unfold freshFrame
      by_cases hAM : comp.anyMasks = true
      · rw [if_pos hAM]
        symm
        unfold framePilCanvas
        rw [hBlitPil]
        refine (pil_fold_static comp.clips
          (pilBase comp.bg comp.size.1 comp.size.2 t) hall).trans ?_
        rw [pilBase_static t hbg.1]
      · rw [if_neg hAM]
        have hnomask : ∀ c ∈ comp.clips, c.mask = none := by
          intro c hc
          have h0 : comp.anyMasks = false := Bool.eq_false_iff.mpr hAM
          rw [hAny] at h0
          rw [List.any_eq_false] at h0
          exact Option.not_isSome_iff_eq_none.mp (h0 c hc)
        have hall2 : ∀ c ∈ comp.clips, StaticContent c ∧ ConstPos c ∧
            c.mask = none ∧ isPlayingB c t = true := by
          intro c hc
          obtain ⟨hsc, _, hcp, hplay⟩ := hall c hc
          exact ⟨hsc, hcp, hnomask c hc, hplay⟩
        symm
        unfold frameNumpy
        rw [hBlitNp]
        refine (np_fold_static comp.clips
          (makeNumpyCanvas comp.bg comp.size.1 comp.size.2 t) hall2).trans
          ?_
        rw [makeNumpyCanvas_eq_pilBase t hbg]
    · exact absurd hCached (by simp)

/-- Counterexample to the quarantine half of C1 as stated: the
precomputation samples the position only at t = 0 and t = 1.0, so a layer
whose position jumps at t = 1/2 (violating the constant-position
precondition) still counts as static, and the composite built from it
engages the cached frame. -/
theorem claim_C1_counterexample :
    ¬ ConstPos cexClip ∧
    (okD (compositeInit [cexClip] (some (4, 4)) (some (0, 0, 0)) false
      false) cexDummy).cachedFrame.isSome = true := by
  constructor
  · intro h
    have h2 : (if (1 / 2 : ℚ) = 0 ∨ (1 / 2 : ℚ) = 1 then
          ((0 : Int), (0 : Int)) else (1, 0)) =
        (if (0 : ℚ) = 0 ∨ (0 : ℚ) = 1 then ((0 : Int), (0 : Int))
          else (1, 0)) := h (1 / 2) 0
    rw [if_neg (by norm_num), if_pos (Or.inl rfl)] at h2
    exact absurd h2 (by decide)
  · rfl

/-- Witness for C1: a single static colour layer over the created colour
background; the hypotheses hold and the cached frame equals the fresh
flattening at t = 1/3. -/
theorem claim_C1_witness :
    frameFunction (okD (compositeInit [colorClip (2, 2) (9, 9, 9)]
        (some (4, 4)) (some (1, 2, 3)) false false) cexDummy) (1 / 3) =
      freshFrame (okD (compositeInit [colorClip (2, 2) (9, 9, 9)]
        (some (4, 4)) (some (1, 2, 3)) false false) cexDummy) (1 / 3) :=
  claim_C1 (show compositeInit [colorClip (2, 2) (9, 9, 9)] (some (4, 4))
      (some (1, 2, 3)) false false =
      Except.ok (okD (compositeInit [colorClip (2, 2) (9, 9, 9)]
        (some (4, 4)) (some (1, 2, 3)) false false) cexDummy) from rfl)
    (by
      intro c hc
      have hcw : c = colorClip (2, 2) (9, 9, 9) :=
        List.mem_singleton.mp
          (show c ∈ [colorClip (2, 2) (9, 9, 9)] from hc)
      subst hcw
      refine ⟨⟨{ w := 2, h := 2, pix := fun _ _ => (9, 9, 9) }, rfl, rfl,
        fun _ => rfl⟩, ?_, fun _ _ => rfl⟩
      intro m hm
      exact Option.noConfusion
        (show (none : Option MaskClip) = some m from hm))
    (by
      intro c hc
      have hcw : c = colorClip (2, 2) (9, 9, 9) :=
        List.mem_singleton.mp
          (show c ∈ [colorClip (2, 2) (9, 9, 9)] from hc)
      subst hcw
      exact ⟨rfl, Or.inl rfl⟩)
    (by
      refine ⟨fun _ => rfl, fun bp hbp => ?_⟩
      exact Option.some.inj
        (show some { w := 4, h := 4, pix := fun _ _ => (1, 2, 3) } = some bp
          from hbp))
    (by norm_num)
    (by
      intro d hd
      exact Option.noConfusion (show (none : Option ℚ) = some d from hd))
